import Mathlib

/-!
Verification of the PCIe link-tuning tool (`tools/gpu-pcie-tuner.py`).

The development shallowly embeds the tool's core: the BDF address
validator, the sysfs topology walker, and the register-tuning link
operations (Extended Tag, MPS, MRRS, Completion-Timeout-Disable,
Completion-Timeout-Range, ACS).  External effects are made explicit:

* the sysfs hierarchy is a structure `Fs` giving the set of device
  symlinks and the resolved real path (as a component list) of each;
* PCI configuration space is a state `PciState : String → Device`
  holding, per BDF, the register values the tool reads and writes,
  together with per-register read-success flags and a per-device
  write-success flag (modelling `setpci` failures);
* every `setpci` write command issued is recorded in a `WriteEv` log,
  whether or not it succeeds.

Python big-integer bit tricks are translated exactly: `x & ~m` becomes
`pyAndNot x m` (proved equal to `Nat.ldiff x m`), and `x & m`, `x | m`,
`x << n`, `x >> n` become the corresponding `Nat` operations.
-/

namespace PcieTuner

/-! ### BDF validator (`is_pci_bdf`, source lines 307-311) -/

/-- One character of the class `[0-9a-fA-F]`. -/
def isHexDigitChar (c : Char) : Bool :=
  ('0' ≤ c && c ≤ '9') || ('a' ≤ c && c ≤ 'f') || ('A' ≤ c && c ≤ 'F')

/-- Exact (full-string) match of the documented pattern
`^[0-9a-fA-F]{4}:[0-9a-fA-F]{2}:[0-9a-fA-F]{2}\.[0-9a-fA-F]$`:
twelve characters of the shape `DDDD:BB:DD.F`. -/
def bdfExactMatch : List Char → Bool
  | [d1, d2, d3, d4, c1, b1, b2, c2, v1, v2, dt, f1] =>
    isHexDigitChar d1 && isHexDigitChar d2 && isHexDigitChar d3 && isHexDigitChar d4 &&
    (c1 == ':') && isHexDigitChar b1 && isHexDigitChar b2 &&
    (c2 == ':') && isHexDigitChar v1 && isHexDigitChar v2 &&
    (dt == '.') && isHexDigitChar f1
  | _ => false

/-- Function `is_pci_bdf`: `re.match(r'^...$', bdf) is not None`.  Python's `$`
matches at the end of the string or just before one trailing newline,
so the accepted language is the exact pattern plus the same strings
with a single trailing `'\n'`. -/
def isPciBdf (s : String) : Bool :=
  bdfExactMatch s.data ||
    (s.data.getLast? == some '\n' && bdfExactMatch s.data.dropLast)

/-- Modelled from the spec: the §4.1 BDF Validator contract
`parse(s) -> DeviceAddress | InvalidFormat` (the source only exposes the
boolean `is_pci_bdf`; the spec additionally fixes the canonical rendered
form as the lower-case string). -/
def pciBdfParse (s : String) : Option String :=
  if bdfExactMatch s.data then some (String.mk (s.data.map Char.toLower)) else none

/-! ### Topology walker (`get_pci_path_to_root`, source lines 331-363) -/

/-- The sysfs view the walker consumes: which BDF symlinks exist under
`/sys/bus/pci/devices/`, and the component list of
`os.path.realpath("/sys/bus/pci/devices/" ++ bdf)` (root-first, e.g.
`["sys", "devices", "pci0000:00", "0000:00:02.0", "0000:41:00.0"]`). -/
structure Fs where
  devices : List String
  realpath : String → List String

/-- Whether `pat` occurs as a contiguous run inside `l`. -/
def listHasInfix (pat : List Char) : List Char → Bool
  | [] => pat.isEmpty
  | c :: cs => pat.isPrefixOf (c :: cs) || listHasInfix pat cs

/-- Substring test `"pci" in component` (components contain no slash, so
`"pci" in current_path` holds iff some remaining component contains it). -/
def hasPciSub (c : String) : Bool :=
  listHasInfix "pci".data c.data

/-- Test `"pci" in current_path` for the path made of the reversed component
list (deepest component first). -/
def containsPciRev (comps : List String) : Bool :=
  comps.any hasPciSub

/-- The `while current_path != "/" and "pci" in current_path` loop, on
the reversed component list: take the basename, keep it when it is a
valid BDF, and step to the parent. -/
def walkRev : List String → List String
  | [] => []
  | b :: rest =>
    if containsPciRev (b :: rest) then
      (if isPciBdf b then [b] else []) ++ walkRev rest
    else []

/-- Function `get_pci_path_to_root`: validate the BDF, require the sysfs symlink
to exist, then walk the resolved real path upward collecting BDF
components; an empty collection is an error (`None`). -/
def getPciPathToRoot (fs : Fs) (bdf : String) : Option (List String) :=
  if isPciBdf bdf then
    if fs.devices.contains bdf then
      let pcs := walkRev (fs.realpath bdf).reverse
      if pcs.isEmpty then none else some pcs
    else none
  else none

/-- Function `get_root_port`: the last element of the walker's path. -/
def getRootPort (fs : Fs) (bdf : String) : Option String :=
  match getPciPathToRoot fs bdf with
  | none => none
  | some path => some (path.getLastD "")

/-! ### Register accessor (`_run_setpci_read` / `_run_setpci_write`) -/

/-- The register specifiers the tool passes to `setpci`. -/
inductive Reg where
  | capExp2w   -- `CAP_EXP+2.w`,  PCIe Capabilities Register
  | capExp4l   -- `CAP_EXP+4.l`,  Device Capabilities
  | capExp8w   -- `CAP_EXP+8.w`,  Device Control
  | capExp24L  -- `CAP_EXP+24.L`, Device Capabilities 2
  | capExp28w  -- `CAP_EXP+28.w`, Device Control 2 (word access)
  | capExp28L  -- `CAP_EXP+28.L`, Device Control 2 (long access)
  | ecapAcs6b  -- `ECAP_ACS+6.b`, ACS Control
  deriving DecidableEq, Repr

/-- Per-device configuration-space contents, with a read-success flag for
each readable register and one write-success flag (a failing `setpci`
write leaves the register unchanged and returns a nonzero status).  The
Device Control 2 register backs both the `.w` and the `.L` access used
by the tool; no modelled operation mixes the two widths on one device. -/
structure Device where
  capReg : Nat
  capRegOk : Bool
  devCap : Nat
  devCapOk : Bool
  devCtl : Nat
  devCtlOk : Bool
  devCap2 : Nat
  devCap2Ok : Bool
  devCtl2 : Nat
  devCtl2Ok : Bool
  hasAcsCtl : Bool   -- `"ACSCtl:" in lspci -vvs` output
  acsCtl : Nat
  writeOk : Bool
  deriving DecidableEq, Repr

/-- The PCI configuration space: one `Device` per BDF string. -/
abbrev PciState := String → Device

/-- Read `_run_setpci_read bdf reg`: the current register value, or `none`
on a failed or unparsable read. -/
def readReg (d : Device) : Reg → Option Nat
  | .capExp2w => if d.capRegOk then some d.capReg else none
  | .capExp4l => if d.devCapOk then some d.devCap else none
  | .capExp8w => if d.devCtlOk then some d.devCtl else none
  | .capExp24L => if d.devCap2Ok then some d.devCap2 else none
  | .capExp28w => if d.devCtl2Ok then some d.devCtl2 else none
  | .capExp28L => if d.devCtl2Ok then some d.devCtl2 else none
  | .ecapAcs6b => some d.acsCtl

/-- Effect of a successful `setpci` write on one device. -/
def updateReg (d : Device) (r : Reg) (v : Nat) : Device :=
  match r with
  | .capExp2w => { d with capReg := v }
  | .capExp4l => { d with devCap := v }
  | .capExp8w => { d with devCtl := v }
  | .capExp24L => { d with devCap2 := v }
  | .capExp28w => { d with devCtl2 := v }
  | .capExp28L => { d with devCtl2 := v }
  | .ecapAcs6b => { d with acsCtl := v }

/-- Point update of the configuration space. -/
def setDev (s : PciState) (b : String) (d : Device) : PciState :=
  fun x => if x = b then d else s x

def setpciRead (s : PciState) (b : String) (r : Reg) : Option Nat :=
  readReg (s b) r

/-- Write `_run_setpci_write`: issue the write; it succeeds (updating the
register) iff the device accepts writes. -/
def setpciWrite (s : PciState) (b : String) (r : Reg) (v : Nat) : PciState × Bool :=
  if (s b).writeOk then (setDev s b (updateReg (s b) r v), true) else (s, false)

/-- Python's `r & ~m` on a nonnegative big integer: clear in `r` the
bits set in `m`.  Since `r &&& m` is a sub-mask of `r`, this equals
`r - (r &&& m)` (kernel-reducible); `testBit_pyAndNot` below gives the
bitwise reading. -/
def pyAndNot (r m : Nat) : Nat := r - (r &&& m)

/-- A `setpci` write command issued by the tool (logged whether or not
the command succeeded). -/
structure WriteEv where
  bdf : String
  reg : Reg
  val : Nat
  deriving DecidableEq, Repr

/-- One-pass splitter behind `pyTokens`: `acc` holds the reversed
characters of the token being read. -/
def pySplitAux : List Char → List Char → List String
  | [], acc => if acc.isEmpty then [] else [String.mk acc.reverse]
  | c :: cs, acc =>
    if c.isWhitespace then
      if acc.isEmpty then pySplitAux cs []
      else String.mk acc.reverse :: pySplitAux cs []
    else pySplitAux cs (c :: acc)

/-- Python's whitespace `line.split()`: split on runs of whitespace,
discarding empty fields. -/
def pyTokens (l : String) : List String :=
  pySplitAux l.data []

/-- Comprehension `[line.split()[0] for line in lines]`: `none` models the uncaught
`IndexError` when a line has no token. -/
def pyFirstTokens : List String → Option (List String)
  | [] => some []
  | l :: rest =>
    match (pyTokens l).head? with
    | none => none
    | some t =>
      match pyFirstTokens rest with
      | none => none
      | some ts => some (t :: ts)

/-! ### Extended Tag (`extend_enable`, `get_extend_status`,
`enable_pcie_extend`, source lines 396-426, 642-732) -/

/-- Constant `EXT_TAG_BIT_MASK = 1 << 8`. -/
def extTagBitMask : Nat := 1 <<< 8

/-- The per-path loop shared by `extend_enable` and `enable_pcie_extend`
(lines 653-670 and 708-717): read Device Control of every device on the
path; when bit 8 is clear, write the value with bit 8 set; read failures
skip the device, write failures are reported but do not stop the loop. -/
def extendLoop (s : PciState) : List String → PciState × List WriteEv
  | [] => (s, [])
  | b :: rest =>
    match setpciRead s b .capExp8w with
    | none => extendLoop s rest
    | some v =>
      if v &&& extTagBitMask = 0 then
        let s' := (setpciWrite s b .capExp8w (v ||| extTagBitMask)).1
        let res := extendLoop s' rest
        (res.1, ⟨b, .capExp8w, v ||| extTagBitMask⟩ :: res.2)
      else extendLoop s rest

/-- Function `get_extend_status`: link-wide Extended Tag status, the conjunction
of Device Control bit 8 of the endpoint and of the root port (the last
path element); `none` when the path or either read fails. -/
def getExtendStatus (fs : Fs) (s : PciState) (bdf : String) : Option Bool :=
  match getPciPathToRoot fs bdf with
  | none => none
  | some path =>
    match setpciRead s bdf .capExp8w, setpciRead s (path.getLastD "") .capExp8w with
    | some ev, some rv =>
      some (decide (ev &&& extTagBitMask ≠ 0) && decide (rv &&& extTagBitMask ≠ 0))
    | some _, none => none
    | none, _ => none

/-- Function `extend_enable` (lines 642-674): walk the endpoint's path and run
the enable loop over every device on it. -/
def extendEnable (fs : Fs) (s : PciState) (bdf : String) : PciState × List WriteEv :=
  match getPciPathToRoot fs bdf with
  | none => (s, [])
  | some path => extendLoop s path

/-- Reported outcome of `enable_pcie_extend` for one endpoint. -/
inductive EnableOutcome where
  | alreadyEnabled | noPath | success | failed
  deriving DecidableEq, Repr

/-- Body of `enable_pcie_extend` for one endpoint (lines 692-725):
check the link status; when not already enabled, run the enable loop
over the whole path and re-check; report success iff the final status
reads back enabled. -/
def enablePcieExtendOne (fs : Fs) (s : PciState) (bdf : String) :
    PciState × List WriteEv × EnableOutcome :=
  if getExtendStatus fs s bdf = some true then (s, [], .alreadyEnabled)
  else
    match getPciPathToRoot fs bdf with
    | none => (s, [], .noPath)
    | some path =>
      let res := extendLoop s path
      if getExtendStatus fs res.1 bdf = some true then (res.1, res.2, .success)
      else (res.1, res.2, .failed)

/-! ### ACS (`configure_acs_for_upstream_ports`, `enable_acs`,
`disable_acs`, source lines 735-804, 1043-1105) -/

/-- Byte `0x1d` to enable, `0x00` to disable. -/
def acsTargetVal (enable : Bool) : Nat := if enable then 0x1d else 0x00

/-- The `for i, bdf in enumerate(path)` loop of
`configure_acs_for_upstream_ports`: skip index 0 (the endpoint) and
index `n-1` (the root port); on interior devices whose `lspci` output
advertises `ACSCtl:`, write the target byte to `ECAP_ACS+6.b`; devices
without the register are skipped.  A failed write clears the success
flag but the loop continues. -/
def acsLoop (tgt : Nat) (n : Nat) : PciState → Nat → List String → PciState × List WriteEv × Bool
  | s, _, [] => (s, [], true)
  | s, i, b :: rest =>
    if i = 0 ∨ i = n - 1 then acsLoop tgt n s (i + 1) rest
    else if (s b).hasAcsCtl then
      let w := setpciWrite s b .ecapAcs6b tgt
      let res := acsLoop tgt n w.1 (i + 1) rest
      (res.1, ⟨b, .ecapAcs6b, tgt⟩ :: res.2.1, w.2 && res.2.2)
    else acsLoop tgt n s (i + 1) rest

/-- Function `configure_acs_for_upstream_ports`: reject invalid BDF input, walk
the path, and run the interior-port loop. -/
def configureAcsForUpstreamPorts (fs : Fs) (s : PciState) (addr : String) (enable : Bool) :
    PciState × List WriteEv × Bool :=
  if isPciBdf addr then
    match getPciPathToRoot fs addr with
    | none => (s, [], false)
    | some path => acsLoop (acsTargetVal enable) path.length s 0 path
  else (s, [], false)

/-- The `for pci_addr in gpu_lines` loop of `enable_acs`/`disable_acs`:
note that it iterates over the raw `lspci` lines, not the extracted
BDFs. -/
def acsLinesLoop (fs : Fs) (enable : Bool) : PciState → List String → PciState × List WriteEv × Bool
  | s, [] => (s, [], true)
  | s, l :: rest =>
    let r1 := configureAcsForUpstreamPorts fs s l enable
    let r2 := acsLinesLoop fs enable r1.1 rest
    (r2.1, r1.2.1 ++ r2.2.1, r1.2.2 && r2.2.2)

/-- Function `enable_acs` (lines 735-768) on a given device listing: build
`gpu_devices` with `line.split()[0]` (`none` = `IndexError` crash),
return early when no device was listed, else configure ACS passing each
raw line; the Bool is the final `success` flag. -/
def enableAcs (fs : Fs) (s : PciState) (lines : List String) :
    Option (PciState × List WriteEv × Bool) :=
  match pyFirstTokens lines with
  | none => none
  | some devs =>
    if devs.isEmpty then some (s, [], true)
    else some (acsLinesLoop fs true s lines)

/-- Function `disable_acs` (lines 771-804), same shape with target `0x00`. -/
def disableAcs (fs : Fs) (s : PciState) (lines : List String) :
    Option (PciState × List WriteEv × Bool) :=
  match pyFirstTokens lines with
  | none => none
  | some devs =>
    if devs.isEmpty then some (s, [], true)
    else some (acsLinesLoop fs false s lines)

/-! ### MRRS (`set_max_read_req`, source lines 807-859) -/

/-- The per-device loop of `set_max_read_req`: read Device Control,
clear bits 14:12 (`reg & 0x8FFF`), install the requested code at bit 12
and write back unconditionally.  Reads and writes use `check=True`, so
any failure aborts the whole run (Bool result: ran to completion). -/
def setMaxReadReqLoop (v : Nat) : PciState → List String → PciState × List WriteEv × Bool
  | s, [] => (s, [], true)
  | s, b :: rest =>
    match setpciRead s b .capExp8w with
    | none => (s, [], false)
    | some reg =>
      let newv := (reg &&& 0x8FFF) ||| (v <<< 12)
      let w := setpciWrite s b .capExp8w newv
      if w.2 then
        let res := setMaxReadReqLoop v w.1 rest
        (res.1, ⟨b, .capExp8w, newv⟩ :: res.2.1, res.2.2)
      else (w.1, [⟨b, .capExp8w, newv⟩], false)

/-- Function `set_max_read_req` over the extracted GPU BDF list (`value` is the
numeric form of the `'0'..'5'` argument; anything else is rejected
before any device is touched). -/
def setMaxReadReq (s : PciState) (gpus : List String) (v : Nat) :
    PciState × List WriteEv × Bool :=
  if v ≤ 5 then setMaxReadReqLoop v s gpus else (s, [], false)

/-! ### Completion-Timeout-Disable (`set_completion_timeout_disable`,
source lines 862-927) -/

/-- The `for dev_name, bdf in [("GPU", gpu_bdf), ("RC", rc_bdf)]` loop:
read Device Control 2 (`CAP_EXP+28.w`), set bit 4 to the target
(`(old & ~(1 << 4)) | (target << 4)`), skip when the value is already
correct, otherwise write; failures only skip the device. -/
def ctdDevLoop (v : Nat) : PciState → List String → PciState × List WriteEv
  | s, [] => (s, [])
  | s, b :: rest =>
    match setpciRead s b .capExp28w with
    | none => ctdDevLoop v s rest
    | some old =>
      let newv := (pyAndNot old (1 <<< 4)) ||| (v <<< 4)
      if newv = old then ctdDevLoop v s rest
      else
        let s' := (setpciWrite s b .capExp28w newv).1
        let res := ctdDevLoop v s' rest
        (res.1, ⟨b, .capExp28w, newv⟩ :: res.2)

/-- The per-GPU loop of `set_completion_timeout_disable`: find the root
port (skipping the GPU when the path fails) and process GPU then RC. -/
def ctdGpuLoop (fs : Fs) (v : Nat) : PciState → List String → PciState × List WriteEv
  | s, [] => (s, [])
  | s, g :: rest =>
    match getRootPort fs g with
    | none => ctdGpuLoop fs v s rest
    | some rc =>
      let r1 := ctdDevLoop v s [g, rc]
      let r2 := ctdGpuLoop fs v r1.1 rest
      (r2.1, r1.2 ++ r2.2)

/-- Function `set_completion_timeout_disable` (the `value` string must be `'0'`
or `'1'`; other values are rejected before any device is touched). -/
def setCompletionTimeoutDisable (fs : Fs) (s : PciState) (gpus : List String) (v : Nat) :
    PciState × List WriteEv :=
  if v ≤ 1 then ctdGpuLoop fs v s gpus else (s, [])

/-! ### Completion-Timeout-Range (`set_completion_timeout_range`,
source lines 929-1041) -/

/-- The nine accepted `--set-timeoutRange` arguments. -/
inductive CtoRange where
  | default | a1 | a2 | b1 | b2 | c1 | c2 | d1 | d2
  deriving DecidableEq, Repr

/-- Table `register_value_map`: the Completion Timeout Value encoding. -/
def ctoRegCode : CtoRange → Nat
  | .default => 0b0000
  | .a1 => 0b0001
  | .a2 => 0b0010
  | .b1 => 0b0101
  | .b2 => 0b0110
  | .c1 => 0b1001
  | .c2 => 0b1010
  | .d1 => 0b1101
  | .d2 => 0b1110

/-- Lookup `support_bit_map[value.split('_')[0]]` (with `.get(..., 0)`):
the Device Capabilities 2 support bit of the requested main range. -/
def ctoMainBit : CtoRange → Nat
  | .default => 0
  | .a1 | .a2 => 0b0001
  | .b1 | .b2 => 0b0010
  | .c1 | .c2 => 0b0100
  | .d1 | .d2 => 0b1000

/-- The per-device body of `set_completion_timeout_range` (source lines
995-1034): read Device Capabilities 2; skip when the 4-bit support mask
is zero (unless `Default` is requested) or lacks the requested main
range; read Device Control 2; skip when Completion-Timeout-Disable
(bit 4) is set; otherwise write `(ctl & ~0xF) | code`. -/
def ctoRangeDev (s : PciState) (b : String) (v : CtoRange) : PciState × List WriteEv :=
  match setpciRead s b .capExp24L with
  | none => (s, [])
  | some cap =>
    let mask := cap &&& 0xF
    if mask = 0 ∧ v ≠ .default then (s, [])
    else if v ≠ .default ∧ mask &&& ctoMainBit v = 0 then (s, [])
    else
      match setpciRead s b .capExp28L with
      | none => (s, [])
      | some ctl =>
        if (ctl >>> 4) &&& 1 = 1 then (s, [])
        else
          let newv := (pyAndNot ctl 0xF) ||| ctoRegCode v
          ((setpciWrite s b .capExp28L newv).1, [⟨b, .capExp28L, newv⟩])

/-- The devices-to-configure loop for one GPU: the root port when found,
then the GPU itself. -/
def ctoRangeDevLoop (v : CtoRange) : PciState → List String → PciState × List WriteEv
  | s, [] => (s, [])
  | s, b :: rest =>
    let r1 := ctoRangeDev s b v
    let r2 := ctoRangeDevLoop v r1.1 rest
    (r2.1, r1.2 ++ r2.2)

/-- One GPU of `set_completion_timeout_range`: `devices_to_configure`
is `[root_port, gpu]` when the root port is found, else `[gpu]`. -/
def ctoRangeGpu (fs : Fs) (s : PciState) (g : String) (v : CtoRange) :
    PciState × List WriteEv :=
  match getRootPort fs g with
  | none => ctoRangeDevLoop v s [g]
  | some rc => ctoRangeDevLoop v s [rc, g]

/-- The per-GPU loop of `set_completion_timeout_range`. -/
def ctoRangeGpuLoop (fs : Fs) (v : CtoRange) : PciState → List String → PciState × List WriteEv
  | s, [] => (s, [])
  | s, g :: rest =>
    let r1 := ctoRangeGpu fs s g v
    let r2 := ctoRangeGpuLoop fs v r1.1 rest
    (r2.1, r1.2 ++ r2.2)

/-- Function `set_completion_timeout_range` over the extracted GPU list. -/
def setCompletionTimeoutRange (fs : Fs) (s : PciState) (gpus : List String) (v : CtoRange) :
    PciState × List WriteEv :=
  ctoRangeGpuLoop fs v s gpus

/-! ### MPS (`set_max_payload` and helpers, source lines 1108-1252) -/

/-- Function `_has_pcie_cap`: `CAP_EXP+2.w` reads back nonzero. -/
def hasPcieCap (s : PciState) (b : String) : Bool :=
  match setpciRead s b .capExp2w with
  | some v => v ≠ 0
  | none => false

/-- Function `_get_mps_cap_code`: Device Capabilities bits 2:0, `none` when the
device has no PCIe capability or the read fails or returns zero. -/
def getMpsCapCode (s : PciState) (b : String) : Option Nat :=
  if hasPcieCap s b then
    match setpciRead s b .capExp4l with
    | none => none
    | some reg => if reg = 0 then none else some (reg &&& 0x7)
  else none

/-- Function `_get_mps_current_code`: Device Control bits 7:5. -/
def getMpsCurrentCode (s : PciState) (b : String) : Option Nat :=
  if hasPcieCap s b then
    match setpciRead s b .capExp8w with
    | none => none
    | some reg => some ((reg >>> 5) &&& 0x7)
  else none

/-- Function `_set_mps_code`: guard the code range and the PCIe capability, read
Device Control, write `(reg & ~(0x7 << 5)) | (code << 5)`, and verify by
reading the current code back. -/
def setMpsCode (s : PciState) (b : String) (code : Nat) :
    PciState × List WriteEv × Bool :=
  if code ≤ 5 then
    if hasPcieCap s b then
      match setpciRead s b .capExp8w with
      | none => (s, [], false)
      | some reg =>
        let newv := (pyAndNot reg (0x7 <<< 5)) ||| (code <<< 5)
        let w := setpciWrite s b .capExp8w newv
        if w.2 then
          (w.1, [⟨b, .capExp8w, newv⟩], getMpsCurrentCode w.1 b == some code)
        else (w.1, [⟨b, .capExp8w, newv⟩], false)
    else (s, [], false)
  else (s, [], false)

/-- The `Writing MPS on devices` loop of `set_max_payload`: apply
`_set_mps_code` to every PCIe-capable device of the path; a failure
clears `ok_all` but the loop continues. -/
def mpsWriteLoop (code : Nat) : PciState → List String → PciState × List WriteEv × Bool
  | s, [] => (s, [], true)
  | s, d :: rest =>
    let r1 := setMpsCode s d code
    let res := mpsWriteLoop code r1.1 rest
    (res.1, r1.2.1 ++ res.2.1, r1.2.2 && res.2.2)

/-- Python's `min` on a nonempty list (`0` on the impossible empty case). -/
def listMin : List Nat → Nat
  | [] => 0
  | c :: rest => rest.foldl Nat.min c

/-- One GPU of `set_max_payload` (lines 1197-1250): walk the path, keep
only PCIe-capable devices, collect their MPS capability codes, and skip
the GPU without any write when the requested code exceeds the minimum;
otherwise write the code to every PCIe-capable device on the path.  The
Bool is the per-GPU success used for `overall_ok`. -/
def setMaxPayloadGpu (fs : Fs) (s : PciState) (code : Nat) (g : String) :
    PciState × List WriteEv × Bool :=
  match getPciPathToRoot fs g with
  | none => (s, [], false)
  | some path =>
    let devs := path.filter (fun d => hasPcieCap s d)
    if devs.isEmpty then (s, [], false)
    else
      let caps := devs.filterMap (fun d => getMpsCapCode s d)
      if caps.isEmpty then (s, [], false)
      else if listMin caps < code then (s, [], false)
      else mpsWriteLoop code s devs

/-- The per-GPU loop of `set_max_payload`. -/
def mpsGpuLoop (fs : Fs) (code : Nat) : PciState → List String → PciState × List WriteEv × Bool
  | s, [] => (s, [], true)
  | s, g :: rest =>
    let r1 := setMaxPayloadGpu fs s code g
    let res := mpsGpuLoop fs code r1.1 rest
    (res.1, r1.2.1 ++ res.2.1, r1.2.2 && res.2.2)

/-- Function `set_max_payload` (lines 1165-1252): validate the code, extract the
BDFs from the nonblank listing lines, and configure every GPU; the Nat
result is the return code (0 all good, 1 no GPUs, 2 failure/invalid). -/
def setMaxPayload (fs : Fs) (s : PciState) (lines : List String) (code : Nat) :
    PciState × List WriteEv × Nat :=
  if 5 < code then (s, [], 2)
  else
    let gpus := (lines.filter (fun l => pyTokens l ≠ [])).map (fun l => (pyTokens l).headD "")
    if gpus.isEmpty then (s, [], 1)
    else
      let res := mpsGpuLoop fs code s gpus
      (res.1, res.2.1, if res.2.2 then 0 else 2)

/-! ## Shared witness fixtures

A three-device chain: endpoint `0000:41:00.0` behind bridge
`0000:40:01.0` behind root port `0000:00:02.0`, laid out in sysfs as
`/sys/devices/pci0000:00/0000:00:02.0/0000:40:01.0/0000:41:00.0`. -/

def epEx : String := "0000:41:00.0"
def brEx : String := "0000:40:01.0"
def rpEx : String := "0000:00:02.0"

def fsEx : Fs := {
  devices := [epEx]
  realpath := fun b =>
    if b = epEx then ["sys", "devices", "pci0000:00", rpEx, brEx, epEx] else [] }

/-- A fully healthy device: PCIe capability present, MPS capability code
1 (256B), Extended Tag disabled, all four CTO ranges supported, CTO
enabled, ACS register present, writes succeed. -/
def devEx : Device :=
  { capReg := 0x0002, capRegOk := true, devCap := 0x8001, devCapOk := true,
    devCtl := 0x2810, devCtlOk := true, devCap2 := 0x000F, devCap2Ok := true,
    devCtl2 := 0x0000, devCtl2Ok := true, hasAcsCtl := true, acsCtl := 0,
    writeOk := true }

/-- Every device healthy. -/
def sAllOk : PciState := fun _ => devEx

/-- Same chain, but writes to the bridge fail. -/
def sBridgeBad : PciState := fun b =>
  if b = brEx then { devEx with writeOk := false } else devEx

/-- Device `d` gives the Extended Tag loop nothing to do: its Device
Control is unreadable or bit 8 is already set. -/
def extDone (s : PciState) (d : String) : Prop :=
  (s d).devCtlOk = true → (s d).devCtl &&& extTagBitMask ≠ 0

/-- Device `d` gives the Completion-Timeout-Disable loop nothing to do:
its Device Control 2 is unreadable or already a fixed point of the
bit-4 update. -/
def ctdDone (v : Nat) (s : PciState) (d : String) : Prop :=
  (s d).devCtl2Ok = true →
    (pyAndNot (s d).devCtl2 (1 <<< 4)) ||| (v <<< 4) = (s d).devCtl2

/-! ## C8 — BDF validator -/

/-- C8 (counterexample): the claim says `is_pci_bdf` accepts a string
exactly when it matches the anchored pattern; but Python's `$` also
matches just before one trailing newline, so `"0000:01:00.0\n"` is
accepted although it does not match the twelve-character pattern. -/
theorem bdf_validator_trailing_newline :
    isPciBdf "0000:01:00.0\n" = true ∧
      bdfExactMatch "0000:01:00.0\n".data = false := by
  constructor <;> decide

/-- C8 (amended): `is_pci_bdf` accepts a string exactly when it matches
the pattern `^[0-9a-fA-F]{4}:[0-9a-fA-F]{2}:[0-9a-fA-F]{2}\.[0-9a-fA-F]$`
or is such a match followed by one trailing newline (Python `$`
semantics); every exact match round-trips through the spec's `parse` to
the canonical lower-case string. -/
theorem bdf_validator_accepts (s : String) :
    (isPciBdf s = true ↔
      (bdfExactMatch s.data = true ∨
        (s.data.getLast? = some '\n' ∧ bdfExactMatch s.data.dropLast = true))) ∧
    (bdfExactMatch s.data = true →
      pciBdfParse s = some (String.mk (s.data.map Char.toLower))) := by
  constructor
  · simp [isPciBdf, Bool.or_eq_true, Bool.and_eq_true, beq_iff_eq]
  · intro h
    simp [pciBdfParse, h]

/-- C8 (witness): the amended theorem at a concrete mixed-case address. -/
theorem bdf_validator_accepts_witness :
    isPciBdf "0000:AB:0e.7" = true ∧
      pciBdfParse "0000:AB:0e.7" = some "0000:ab:0e.7" := by
  refine ⟨(bdf_validator_accepts "0000:AB:0e.7").1.mpr (Or.inl (by decide)), ?_⟩
  rw [(bdf_validator_accepts "0000:AB:0e.7").2 (by decide)]
  decide

/-! ## C4 — topology walker -/

/-- Element `getLastD` of a nonempty list is a member. -/
theorem getLastD_mem {α : Type} {l : List α} (h : l ≠ []) (d : α) :
    l.getLastD d ∈ l := by
  induction l generalizing d with
  | nil => exact absurd rfl h
  | cons a l ih =>
    rw [List.getLastD_cons]
    cases l with
    | nil => simp
    | cons b t => exact List.mem_cons_of_mem a (ih (by simp) a)

/-- The walk passes through a block of valid BDF components unchanged as
long as something deeper still contains `"pci"`. -/
theorem walkRev_bdf_block (l m : List String)
    (hl : ∀ b ∈ l, isPciBdf b = true) (hm : containsPciRev m = true) :
    walkRev (l ++ m) = l ++ walkRev m := by
  induction l with
  | nil => simp
  | cons a l ih =>
    obtain ⟨x, hxm, hx⟩ := List.any_eq_true.mp hm
    have hc : containsPciRev (a :: (l ++ m)) = true :=
      List.any_eq_true.mpr ⟨x, by simp [hxm], hx⟩
    rw [List.cons_append, walkRev, if_pos hc, if_pos (hl a (by simp)),
      ih (fun b hb => hl b (by simp [hb]))]
    simp

/-- The walk collects nothing once no remaining component contains
`"pci"`. -/
theorem walkRev_no_pci (l : List String) (h : ∀ c ∈ l, hasPciSub c = false) :
    walkRev l = [] := by
  cases l with
  | nil => rfl
  | cons c l =>
    have hc : containsPciRev (c :: l) = false := by
      rw [← Bool.not_eq_true]
      intro hany
      obtain ⟨x, hx, hpx⟩ := List.any_eq_true.mp hany
      rw [h x hx] at hpx
      exact Bool.false_ne_true hpx
    rw [walkRev, hc]
    simp

/-- C4 (confirmed): for a sysfs layout where the endpoint's real path is
`nonPci ++ [pciRoot] ++ bdfs` — the deepest component being the endpoint
itself, every component below `pciRoot` a valid BDF, `pciRoot` (e.g.
`pci0000:00`) containing `"pci"` but not parsing as a BDF, and nothing
above it containing `"pci"` — the walker returns exactly the reversed
BDF chain: non-empty, endpoint at index 0, each next element the
immediate sysfs parent of the previous one, ending at the last valid BDF
(the component whose parent no longer parses as a BDF), the root port. -/
theorem topology_walker_path (fs : Fs) (gpu pciRoot : String)
    (nonPci bdfs : List String)
    (hreal : fs.realpath gpu = nonPci ++ pciRoot :: bdfs)
    (hnp : ∀ c ∈ nonPci, hasPciSub c = false)
    (hpr : hasPciSub pciRoot = true)
    (hprb : isPciBdf pciRoot = false)
    (hb : ∀ b ∈ bdfs, isPciBdf b = true)
    (hne : bdfs ≠ [])
    (hlast : bdfs.getLastD "" = gpu)
    (hdev : fs.devices.contains gpu = true) :
    getPciPathToRoot fs gpu = some bdfs.reverse ∧
    bdfs.reverse ≠ [] ∧
    bdfs.reverse.headD "" = gpu ∧
    bdfs.reverse.getLastD "" = bdfs.headD "" := by
  have hgpu : isPciBdf gpu = true := hlast ▸ hb _ (getLastD_mem hne "")
  have hrev : (fs.realpath gpu).reverse = bdfs.reverse ++ pciRoot :: nonPci.reverse := by
    rw [hreal]
    simp
  have hwr : walkRev (fs.realpath gpu).reverse = bdfs.reverse := by
    have hc2 : containsPciRev (pciRoot :: nonPci.reverse) = true :=
      List.any_eq_true.mpr ⟨pciRoot, by simp, hpr⟩
    have hno : walkRev nonPci.reverse = [] :=
      walkRev_no_pci _ (fun c hc => hnp c (List.mem_reverse.mp hc))
    rw [hrev, walkRev_bdf_block _ _ (fun b hb' => hb b (List.mem_reverse.mp hb')) hc2]
    simp [walkRev, hc2, hprb, hno]
  have hrne : bdfs.reverse ≠ [] := by simpa using hne
  refine ⟨?_, hrne, ?_, ?_⟩
  · rw [getPciPathToRoot, if_pos hgpu, if_pos hdev, hwr,
      if_neg (by simpa [List.isEmpty_iff] using hrne)]
  · rw [List.headD_eq_head?, List.head?_reverse, ← List.getLastD_eq_getLast?, hlast]
  · rw [List.getLastD_eq_getLast?, List.getLast?_reverse, ← List.headD_eq_head?]

/-- C4 (witness): the walker on the concrete three-device chain. -/
theorem topology_walker_path_witness :
    getPciPathToRoot fsEx epEx = some [epEx, brEx, rpEx] := by
  rw [(topology_walker_path fsEx epEx "pci0000:00" ["sys", "devices"]
      [rpEx, brEx, epEx] (by decide) (by decide) (by decide) (by decide)
      (by decide) (by decide) (by decide) (by decide)).1]
  decide

/-! ## State-invariance helpers for `setpciWrite` -/

theorem write_other {x b : String} (hx : x ≠ b) (s : PciState) (r : Reg) (v : Nat) :
    (setpciWrite s b r v).1 x = s x := by
  unfold setpciWrite
  by_cases h : (s b).writeOk <;> simp [h, setDev, hx]

theorem write_writeOk (s : PciState) (b : String) (r : Reg) (v : Nat) (x : String) :
    ((setpciWrite s b r v).1 x).writeOk = (s x).writeOk := by
  unfold setpciWrite
  by_cases h : (s b).writeOk
  · by_cases hx : x = b
    · subst hx; cases r <;> simp [h, setDev, updateReg]
    · simp [h, setDev, hx]
  · simp [h]

theorem write_hasAcsCtl (s : PciState) (b : String) (r : Reg) (v : Nat) (x : String) :
    ((setpciWrite s b r v).1 x).hasAcsCtl = (s x).hasAcsCtl := by
  unfold setpciWrite
  by_cases h : (s b).writeOk
  · by_cases hx : x = b
    · subst hx; cases r <;> simp [h, setDev, updateReg]
    · simp [h, setDev, hx]
  · simp [h]

theorem write_devCtlOk (s : PciState) (b : String) (r : Reg) (v : Nat) (x : String) :
    ((setpciWrite s b r v).1 x).devCtlOk = (s x).devCtlOk := by
  unfold setpciWrite
  by_cases h : (s b).writeOk
  · by_cases hx : x = b
    · subst hx; cases r <;> simp [h, setDev, updateReg]
    · simp [h, setDev, hx]
  · simp [h]

theorem write_devCtl2Ok (s : PciState) (b : String) (r : Reg) (v : Nat) (x : String) :
    ((setpciWrite s b r v).1 x).devCtl2Ok = (s x).devCtl2Ok := by
  unfold setpciWrite
  by_cases h : (s b).writeOk
  · by_cases hx : x = b
    · subst hx; cases r <;> simp [h, setDev, updateReg]
    · simp [h, setDev, hx]
  · simp [h]

theorem write8_capFields (s : PciState) (b : String) (v : Nat) (x : String) :
    ((setpciWrite s b .capExp8w v).1 x).capReg = (s x).capReg ∧
    ((setpciWrite s b .capExp8w v).1 x).capRegOk = (s x).capRegOk ∧
    ((setpciWrite s b .capExp8w v).1 x).devCap = (s x).devCap ∧
    ((setpciWrite s b .capExp8w v).1 x).devCapOk = (s x).devCapOk := by
  unfold setpciWrite
  by_cases h : (s b).writeOk
  · by_cases hx : x = b
    · subst hx; simp [h, setDev, updateReg]
    · simp [h, setDev, hx]
  · simp [h]

/-- A write through `CAP_EXP+8.w` does not change whether any device
reports a PCIe capability. -/
theorem write8_hasPcieCap (s : PciState) (b : String) (v : Nat) (x : String) :
    hasPcieCap (setpciWrite s b .capExp8w v).1 x = hasPcieCap s x := by
  unfold hasPcieCap setpciRead readReg
  rcases write8_capFields s b v x with ⟨h1, h2, -, -⟩
  rw [h1, h2]

/-! ## Bitwise facts about `pyAndNot` -/

/-- Carry-free addition: disjoint bit patterns add like bitwise or. -/
theorem add_of_and_eq_zero (a : Nat) : ∀ b : Nat, a &&& b = 0 → a + b = a ||| b := by
  induction a using Nat.div2Induction with
  | ind a ih =>
    intro b h
    rcases Nat.eq_zero_or_pos a with ha | ha
    · subst ha; simp
    · have hd : a / 2 + b / 2 = a / 2 ||| b / 2 := by
        apply ih ha
        rw [← Nat.and_div_two, h]
      have hab : ¬(a % 2 = 1 ∧ b % 2 = 1) := by
        intro hc
        have h1 := Nat.and_mod_two_eq_one.mpr hc
        rw [h] at h1
        simp at h1
      have key : a % 2 + b % 2 = (a ||| b) % 2 := by
        rcases Nat.mod_two_eq_zero_or_one a with h1 | h1 <;>
          rcases Nat.mod_two_eq_zero_or_one b with h2 | h2
        · have h3 : ¬((a ||| b) % 2 = 1) := by
            rw [Nat.or_mod_two_eq_one]; omega
          have h4 := Nat.mod_two_eq_zero_or_one (a ||| b)
          omega
        · have h3 : (a ||| b) % 2 = 1 := Nat.or_mod_two_eq_one.mpr (Or.inr h2)
          omega
        · have h3 : (a ||| b) % 2 = 1 := Nat.or_mod_two_eq_one.mpr (Or.inl h1)
          omega
        · exact absurd ⟨h1, h2⟩ hab
      have e2 : (a ||| b) / 2 = a / 2 ||| b / 2 := Nat.or_div_two
      omega

/-- The cleared bits and the kept bits of `r` partition it. -/
theorem ldiff_add_and (r m : Nat) : Nat.ldiff r m + (r &&& m) = r := by
  have hdisj : Nat.ldiff r m &&& (r &&& m) = 0 := by
    apply Nat.zero_of_testBit_eq_false
    intro i
    rw [Nat.testBit_land, Nat.testBit_ldiff, Nat.testBit_land]
    cases r.testBit i <;> cases m.testBit i <;> simp
  rw [add_of_and_eq_zero _ _ hdisj]
  apply Nat.eq_of_testBit_eq
  intro i
  rw [Nat.testBit_lor, Nat.testBit_ldiff, Nat.testBit_land]
  cases r.testBit i <;> cases m.testBit i <;> simp

theorem pyAndNot_eq_ldiff (r m : Nat) : pyAndNot r m = Nat.ldiff r m := by
  have h := ldiff_add_and r m
  have h2 : r &&& m ≤ r := Nat.and_le_left
  unfold pyAndNot
  omega

theorem testBit_pyAndNot (r m i : Nat) :
    (pyAndNot r m).testBit i = (r.testBit i && !(m.testBit i)) := by
  rw [pyAndNot_eq_ldiff, Nat.testBit_ldiff]

/-- Reading back Device Control bits 7:5 after
`(reg & ~(0x7 << 5)) | (code << 5)` returns the installed code. -/
theorem mps_readback_code (w code : Nat) (h : code < 8) :
    ((pyAndNot w 224 ||| (code <<< 5)) >>> 5) &&& 7 = code := by
  rw [(by decide : (224 : Nat) = 0x7 <<< 5)]
  apply Nat.eq_of_testBit_eq
  intro i
  rw [Nat.testBit_land, Nat.testBit_shiftRight, Nat.testBit_lor, testBit_pyAndNot,
    Nat.testBit_shiftLeft, Nat.testBit_shiftLeft]
  rcases Nat.lt_or_ge i 3 with hi | hi
  · have h70 : Nat.testBit 7 0 = true := by decide
    have h71 : Nat.testBit 7 1 = true := by decide
    have h72 : Nat.testBit 7 2 = true := by decide
    interval_cases i <;> simp [h70, h71, h72]
  · have h8 : (8 : Nat) ≤ 2 ^ i := by
      calc (8 : Nat) = 2 ^ 3 := by norm_num
        _ ≤ 2 ^ i := Nat.pow_le_pow_right (by norm_num) hi
    have h7 : Nat.testBit 7 i = false := Nat.testBit_lt_two_pow (by omega)
    have hc : Nat.testBit code i = false := Nat.testBit_lt_two_pow (by omega)
    simp [h7, hc]

/-- Setting bit 4 via `(old & ~(1 << 4)) | (v << 4)` is idempotent. -/
theorem ctd_newval_idem (x v : Nat) :
    pyAndNot (pyAndNot x (1 <<< 4) ||| (v <<< 4)) (1 <<< 4) ||| (v <<< 4) =
      pyAndNot x (1 <<< 4) ||| (v <<< 4) := by
  apply Nat.eq_of_testBit_eq
  intro i
  rw [Nat.testBit_lor, testBit_pyAndNot, Nat.testBit_lor, testBit_pyAndNot]
  cases x.testBit i <;> cases (Nat.testBit (1 <<< 4) i) <;>
    cases (Nat.testBit (v <<< 4) i) <;> simp

/-! ## C2 — ACS touches only interior ports -/

/-- Unrolling of the `enumerate` loop of
`configure_acs_for_upstream_ports` from any interior start index: the
issued writes are exactly one per remaining non-final device that
advertises `ACSCtl:`. -/
theorem acsLoop_log (tgt : Nat) (rest : List String) :
    ∀ (s : PciState) (i n : Nat), 1 ≤ i → i + rest.length = n →
      (acsLoop tgt n s i rest).2.1 =
        (rest.dropLast.filter (fun b => (s b).hasAcsCtl)).map
          (fun b => ⟨b, Reg.ecapAcs6b, tgt⟩) := by
  induction rest with
  | nil => intro s i n _ _; simp [acsLoop]
  | cons b rest ih =>
    intro s i n h1 h2
    have hlen : i + rest.length + 1 = n := by simp at h2; omega
    have hne : i ≠ 0 := by omega
    by_cases hlastIdx : i = n - 1
    · have hrest : rest = [] := by
        have : rest.length = 0 := by omega
        exact List.eq_nil_of_length_eq_zero this
      subst hrest
      simp [acsLoop, hlastIdx]
    · have hcond : ¬(i = 0 ∨ i = n - 1) := by
        intro h; rcases h with h | h
        · exact hne h
        · exact hlastIdx h
      have hrne : rest ≠ [] := by
        intro h
        have : rest.length = 0 := by simp [h]
        omega
      rw [List.dropLast_cons_of_ne_nil hrne]
      by_cases hb : (s b).hasAcsCtl
      · have hrec := ih (setpciWrite s b .ecapAcs6b tgt).1 (i + 1) n (by omega)
          (by omega)
        have hfe : (rest.dropLast.filter
              (fun x => ((setpciWrite s b .ecapAcs6b tgt).1 x).hasAcsCtl)) =
            (rest.dropLast.filter (fun x => (s x).hasAcsCtl)) :=
          List.filter_congr (fun x _ => by rw [write_hasAcsCtl])
        simp only [acsLoop, if_neg hcond, if_pos hb]
        rw [hrec, hfe, List.filter_cons_of_pos (by simpa using hb)]
        simp
      · have hrec := ih s (i + 1) n (by omega) (by omega)
        simp only [acsLoop, if_neg hcond, if_neg hb]
        rw [hrec, List.filter_cons_of_neg (by simpa using hb)]

/-- C2 (confirmed): for a valid endpoint BDF with a found path, the ACS
configuration writes the ACS control register exactly on the devices at
path indices strictly between 0 and the last that advertise the
register; the endpoint (index 0) and the root port (last index) are
never written, and interior devices without the register are skipped. -/
theorem acs_writes_interior_only (fs : Fs) (s : PciState) (addr : String)
    (en : Bool) (path : List String)
    (hbdf : isPciBdf addr = true)
    (hpath : getPciPathToRoot fs addr = some path)
    (hnd : path.Nodup) :
    (configureAcsForUpstreamPorts fs s addr en).2.1 =
      ((path.drop 1).dropLast.filter (fun b => (s b).hasAcsCtl)).map
        (fun b => ⟨b, Reg.ecapAcs6b, acsTargetVal en⟩) ∧
    ∀ ev ∈ (configureAcsForUpstreamPorts fs s addr en).2.1,
      ev.bdf ≠ path.headD "" ∧ ev.bdf ≠ path.getLastD "" := by
  have hlog : (configureAcsForUpstreamPorts fs s addr en).2.1 =
      ((path.drop 1).dropLast.filter (fun b => (s b).hasAcsCtl)).map
        (fun b => ⟨b, Reg.ecapAcs6b, acsTargetVal en⟩) := by
    unfold configureAcsForUpstreamPorts
    rw [if_pos hbdf, hpath]
    cases path with
    | nil => simp [acsLoop]
    | cons p0 prest =>
      have hstep : acsLoop (acsTargetVal en) (p0 :: prest).length s 0 (p0 :: prest) =
          acsLoop (acsTargetVal en) (p0 :: prest).length s 1 prest := by
        simp [acsLoop]
      show (acsLoop (acsTargetVal en) (p0 :: prest).length s 0 (p0 :: prest)).2.1 = _
      rw [hstep, acsLoop_log (acsTargetVal en) prest s 1 (p0 :: prest).length
        (by omega) (by simp; omega)]
      simp
  refine ⟨hlog, fun ev hev => ?_⟩
  rw [hlog] at hev
  obtain ⟨x, hx, rfl⟩ := List.mem_map.mp hev
  have hx' : x ∈ (path.drop 1).dropLast := List.mem_of_mem_filter hx
  cases path with
  | nil => simp at hx'
  | cons p0 prest =>
    simp only [List.drop_one, List.tail_cons] at hx'
    have hxp : x ∈ prest := List.dropLast_subset _ hx'
    constructor
    · intro h
      simp only [List.headD_cons] at h
      subst h
      exact (List.nodup_cons.mp hnd).1 hxp
    · intro h
      have hpne : prest ≠ [] := by
        intro hh; subst hh; simp at hx'
      rw [List.getLastD_cons, List.getLastD_eq_getLast?,
        List.getLast?_eq_getLast prest hpne] at h
      have hsplit : prest.dropLast ++ [prest.getLast hpne] = prest :=
        List.dropLast_append_getLast hpne
      have hnd' : (prest.dropLast ++ [prest.getLast hpne]).Nodup := by
        rw [hsplit]; exact (List.nodup_cons.mp hnd).2
      have hdisj := (List.nodup_append.mp hnd').2.2
      subst h
      exact hdisj hx' (by simp)

/-- C2 (witness): on the concrete chain, only the interior bridge is
written with the enable byte `0x1d`. -/
theorem acs_writes_interior_only_witness :
    (configureAcsForUpstreamPorts fsEx sAllOk epEx true).2.1 =
      [⟨brEx, Reg.ecapAcs6b, 0x1d⟩] := by
  rw [(acs_writes_interior_only fsEx sAllOk epEx true [epEx, brEx, rpEx]
      (by decide) (by decide) (by decide)).1]
  decide

/-! ## C6 — Completion-Timeout-Range write conditions -/

/-- C6 (confirmed): for a requested main range A-D, the
Completion-Timeout-Range write to a device happens exactly when both
reads succeed, the 4-bit support mask of Device Capabilities 2
advertises the requested main range, and the Completion-Timeout-Disable
bit (Device Control 2 bit 4) is currently 0; otherwise the device is
skipped with no write. -/
theorem cto_range_write_condition (s : PciState) (b : String) (v : CtoRange)
    (hv : v ≠ CtoRange.default) :
    (ctoRangeDev s b v).2 ≠ [] ↔
      ((s b).devCap2Ok = true ∧
       ((s b).devCap2 &&& 0xF) &&& ctoMainBit v ≠ 0 ∧
       (s b).devCtl2Ok = true ∧
       ((s b).devCtl2 >>> 4) &&& 1 = 0) := by
  unfold ctoRangeDev setpciRead readReg
  by_cases h1 : (s b).devCap2Ok
  · by_cases h4 : ((s b).devCap2 &&& 0xF) &&& ctoMainBit v = 0
    · by_cases h2 : (s b).devCap2 &&& 0xF = 0
      · simp [h1, h2, h4, hv]
      · simp [h1, h2, h4, hv]
    · have h2 : ¬((s b).devCap2 &&& 0xF = 0) := by
        intro h; rw [h] at h4; simp at h4
      by_cases h3 : (s b).devCtl2Ok
      · by_cases h5 : ((s b).devCtl2 >>> 4) &&& 1 = 1
        · have h5' : ¬(((s b).devCtl2 >>> 4) &&& 1 = 0) := by
            rw [h5]; simp
          simp [h1, h2, h3, h4, h5, h5', hv]
        · have h5' : ((s b).devCtl2 >>> 4) &&& 1 = 0 := by
            have := Nat.and_one_is_mod ((s b).devCtl2 >>> 4)
            rw [this] at h5 ⊢
            omega
          simp [h1, h2, h3, h4, h5, h5', hv]
      · simp [h1, h2, h3, h4, hv]
  · simp [h1, hv]

/-- C6 (witness): the spec scenarios — main range C requested on a
device whose support mask is `0b0011` (A and B only), and range A
requested on a device whose Completion-Timeout-Disable bit is 1 — both
produce no write. -/
theorem cto_range_write_condition_witness :
    (ctoRangeDev (fun _ => { devEx with devCap2 := 0b0011 }) epEx CtoRange.c1).2 = [] ∧
    (ctoRangeDev (fun _ => { devEx with devCtl2 := 0x10 }) epEx CtoRange.a1).2 = [] := by
  constructor
  · by_contra hne
    exact absurd ((cto_range_write_condition
      (fun _ => { devEx with devCap2 := 0b0011 }) epEx CtoRange.c1 (by decide)).mp hne)
      (by decide)
  · by_contra hne
    exact absurd ((cto_range_write_condition
      (fun _ => { devEx with devCtl2 := 0x10 }) epEx CtoRange.a1 (by decide)).mp hne)
      (by decide)

/-! ## The Extended Tag enable loop, characterized -/

theorem extendLoop_cons_unreadable {s : PciState} {b : String} (rest : List String)
    (h1 : (s b).devCtlOk = false) :
    extendLoop s (b :: rest) = extendLoop s rest := by
  simp [extendLoop, setpciRead, readReg, h1]

theorem extendLoop_cons_set {s : PciState} {b : String} (rest : List String)
    (h1 : (s b).devCtlOk = true) (h2 : ¬((s b).devCtl &&& extTagBitMask = 0)) :
    extendLoop s (b :: rest) = extendLoop s rest := by
  simp [extendLoop, setpciRead, readReg, h1, h2]

theorem extendLoop_cons_clear {s : PciState} {b : String} (rest : List String)
    (h1 : (s b).devCtlOk = true) (h2 : (s b).devCtl &&& extTagBitMask = 0) :
    extendLoop s (b :: rest) =
      ((extendLoop (setpciWrite s b .capExp8w ((s b).devCtl ||| extTagBitMask)).1 rest).1,
        ⟨b, Reg.capExp8w, (s b).devCtl ||| extTagBitMask⟩ ::
          (extendLoop (setpciWrite s b .capExp8w ((s b).devCtl ||| extTagBitMask)).1 rest).2) := by
  simp [extendLoop, setpciRead, readReg, h1, h2]

/-- On a duplicate-free path, the enable loop issues exactly one write —
setting bit 8 — for each device whose Device Control is readable with
bit 8 clear, independently of whether any of the writes succeed. -/
theorem extendLoop_log (path : List String) :
    ∀ s : PciState, path.Nodup →
      (extendLoop s path).2 =
        (path.filter (fun d => (s d).devCtlOk &&
            ((s d).devCtl &&& extTagBitMask == 0))).map
          (fun d => ⟨d, Reg.capExp8w, (s d).devCtl ||| extTagBitMask⟩) := by
  induction path with
  | nil => intro s _; simp [extendLoop]
  | cons b rest ih =>
    intro s hnd
    have hbrest : b ∉ rest := (List.nodup_cons.mp hnd).1
    have hndr : rest.Nodup := (List.nodup_cons.mp hnd).2
    by_cases h1 : (s b).devCtlOk
    · by_cases h2 : (s b).devCtl &&& extTagBitMask = 0
      · have hs' : ∀ d ∈ rest,
            (setpciWrite s b .capExp8w ((s b).devCtl ||| extTagBitMask)).1 d = s d := by
          intro d hd
          exact write_other (fun h => hbrest (by rw [← h]; exact hd)) s _ _
        have hfe : rest.filter (fun d =>
              ((setpciWrite s b .capExp8w ((s b).devCtl ||| extTagBitMask)).1 d).devCtlOk &&
              (((setpciWrite s b .capExp8w ((s b).devCtl ||| extTagBitMask)).1 d).devCtl &&&
                extTagBitMask == 0)) =
            rest.filter (fun d => (s d).devCtlOk &&
              ((s d).devCtl &&& extTagBitMask == 0)) :=
          List.filter_congr (fun d hd => by rw [hs' d hd])
        have hmap : (rest.filter (fun d => (s d).devCtlOk &&
              ((s d).devCtl &&& extTagBitMask == 0))).map
            (fun d => (⟨d, Reg.capExp8w,
              ((setpciWrite s b .capExp8w ((s b).devCtl ||| extTagBitMask)).1 d).devCtl |||
                extTagBitMask⟩ : WriteEv)) =
            (rest.filter (fun d => (s d).devCtlOk &&
              ((s d).devCtl &&& extTagBitMask == 0))).map
            (fun d => ⟨d, Reg.capExp8w, (s d).devCtl ||| extTagBitMask⟩) :=
          List.map_congr_left (fun d hd => by
            rw [hs' d (List.mem_of_mem_filter hd)])
        rw [extendLoop_cons_clear rest h1 h2, ih _ hndr, hfe, hmap,
          List.filter_cons_of_pos (by simp [h1, h2]), List.map_cons]
      · rw [extendLoop_cons_set rest h1 h2, ih _ hndr,
          List.filter_cons_of_neg (by simp [h1, h2])]
    · have h1' : (s b).devCtlOk = false := by
        rw [← Bool.not_eq_true]; exact h1
      rw [extendLoop_cons_unreadable rest h1', ih _ hndr,
        List.filter_cons_of_neg (by simp [h1'])]

/-! ## C10 — link status reads only endpoint and root port -/

/-- C10 (confirmed): `get_extend_status` is the conjunction of Device
Control bit 8 of the endpoint and of the root port only — any state
agreeing on those two devices yields the same status — and
`enable_pcie_extend` reports an endpoint successfully enabled exactly
when it was not already enabled and the endpoint and root port read back
enabled after the path loop, regardless of intermediate bridge writes. -/
theorem extend_status_endpoint_root_only (fs : Fs) (s : PciState) (ep : String)
    (path : List String) (hpath : getPciPathToRoot fs ep = some path) :
    (∀ s' : PciState, s' ep = s ep → s' (path.getLastD "") = s (path.getLastD "") →
        getExtendStatus fs s' ep = getExtendStatus fs s ep) ∧
    ((enablePcieExtendOne fs s ep).2.2 = EnableOutcome.success ↔
      (getExtendStatus fs s ep ≠ some true ∧
       getExtendStatus fs (extendLoop s path).1 ep = some true)) := by
  constructor
  · intro s' h1 h2
    simp only [getExtendStatus, setpciRead, hpath]
    rw [h1, h2]
  · by_cases h0 : getExtendStatus fs s ep = some true
    · simp [enablePcieExtendOne, h0]
    · by_cases h1 : getExtendStatus fs (extendLoop s path).1 ep = some true
      · simp [enablePcieExtendOne, h0, hpath, h1]
      · simp [enablePcieExtendOne, h0, hpath, h1]

/-- C10 (witness): on the concrete chain where the bridge rejects writes
but the endpoint and root port accept them, the enable operation still
reports success (the bridge write failed and its bit stayed clear). -/
theorem extend_status_endpoint_root_only_witness :
    (enablePcieExtendOne fsEx sBridgeBad epEx).2.2 = EnableOutcome.success ∧
    ((enablePcieExtendOne fsEx sBridgeBad epEx).1 brEx).devCtl &&& extTagBitMask = 0 := by
  refine ⟨(extend_status_endpoint_root_only fsEx sBridgeBad epEx [epEx, brEx, rpEx]
    (by decide)).2.mpr ⟨by decide, by decide⟩, by decide⟩

/-! ## C7 — which devices each operation touches -/

/-- Every write issued by the Completion-Timeout-Disable device loop
targets a device of the processed list. -/
theorem ctdDevLoop_bdfs (v : Nat) (l : List String) :
    ∀ s : PciState, ∀ ev ∈ (ctdDevLoop v s l).2, ev.bdf ∈ l := by
  induction l with
  | nil => intro s ev hev; simp [ctdDevLoop] at hev
  | cons b rest ih =>
    intro s ev hev
    simp only [ctdDevLoop, setpciRead] at hev
    rcases hc : readReg (s b) Reg.capExp28w with _ | old
    · simp only [hc] at hev
      exact List.mem_cons_of_mem b (ih s ev hev)
    · simp only [hc] at hev
      by_cases h2 : (pyAndNot old (1 <<< 4)) ||| (v <<< 4) = old
      · rw [if_pos h2] at hev
        exact List.mem_cons_of_mem b (ih s ev hev)
      · rw [if_neg h2] at hev
        rcases List.mem_cons.mp hev with h | h
        · rw [h]; simp
        · exact List.mem_cons_of_mem b (ih _ ev h)

/-- Every write issued by the Completion-Timeout-Disable per-GPU loop
targets a listed GPU or the root port of a listed GPU. -/
theorem ctdGpuLoop_bdfs (fs : Fs) (v : Nat) (gpus : List String) :
    ∀ s : PciState, ∀ ev ∈ (ctdGpuLoop fs v s gpus).2,
      ∃ g ∈ gpus, ev.bdf = g ∨ getRootPort fs g = some ev.bdf := by
  induction gpus with
  | nil => intro s ev hev; simp [ctdGpuLoop] at hev
  | cons g rest ih =>
    intro s ev hev
    unfold ctdGpuLoop at hev
    cases hrc : getRootPort fs g with
    | none =>
      rw [hrc] at hev
      obtain ⟨g', hg', h⟩ := ih s ev hev
      exact ⟨g', List.mem_cons_of_mem g hg', h⟩
    | some rc =>
      rw [hrc] at hev
      rcases List.mem_append.mp hev with h | h
      · have := ctdDevLoop_bdfs v [g, rc] s ev h
        rcases List.mem_cons.mp this with h' | h'
        · exact ⟨g, by simp, Or.inl h'⟩
        · have : ev.bdf = rc := by simpa using h'
          exact ⟨g, by simp, Or.inr (by rw [hrc, this])⟩
      · obtain ⟨g', hg', h'⟩ := ih _ ev h
        exact ⟨g', List.mem_cons_of_mem g hg', h'⟩

/-- The Completion-Timeout-Range device body either skips the device or
issues exactly one Device Control 2 write to it. -/
theorem ctoRangeDev_log_shape (s : PciState) (b : String) (v : CtoRange) :
    (ctoRangeDev s b v).2 = [] ∨
      ∃ n, (ctoRangeDev s b v).2 = [⟨b, Reg.capExp28L, n⟩] := by
  rcases hc : setpciRead s b .capExp24L with _ | cap
  · left; simp [ctoRangeDev, hc]
  · by_cases h2 : cap &&& 0xF = 0 ∧ v ≠ CtoRange.default
    · left; simp [ctoRangeDev, hc, h2]
    · by_cases h3 : v ≠ CtoRange.default ∧ (cap &&& 0xF) &&& ctoMainBit v = 0
      · left; simp [ctoRangeDev, hc, h2, h3]
      · rcases hctl : setpciRead s b .capExp28L with _ | ctl
        · left; simp [ctoRangeDev, hc, h2, h3, hctl]
        · by_cases h5 : (ctl >>> 4) &&& 1 = 1
          · left; simp [ctoRangeDev, hc, h2, h3, hctl, h5]
          · right
            refine ⟨(pyAndNot ctl 0xF) ||| ctoRegCode v, ?_⟩
            rw [Nat.and_one_is_mod] at h5
            simp [ctoRangeDev, hc, h2, h3, hctl, h5]

/-- Every write issued by the Completion-Timeout-Range device body
targets that device. -/
theorem ctoRangeDev_bdf (s : PciState) (b : String) (v : CtoRange) :
    ∀ ev ∈ (ctoRangeDev s b v).2, ev.bdf = b := by
  intro ev hev
  rcases ctoRangeDev_log_shape s b v with h | ⟨n, h⟩
  · rw [h] at hev; simp at hev
  · rw [h] at hev
    rw [List.mem_singleton.mp hev]

/-- Every write issued by the Completion-Timeout-Range device loop
targets a device of the processed list. -/
theorem ctoRangeDevLoop_bdfs (v : CtoRange) (l : List String) :
    ∀ s : PciState, ∀ ev ∈ (ctoRangeDevLoop v s l).2, ev.bdf ∈ l := by
  induction l with
  | nil => intro s ev hev; simp [ctoRangeDevLoop] at hev
  | cons b rest ih =>
    intro s ev hev
    unfold ctoRangeDevLoop at hev
    rcases List.mem_append.mp hev with h | h
    · rw [ctoRangeDev_bdf s b v ev h]; simp
    · exact List.mem_cons_of_mem b (ih _ ev h)

/-- Every write issued by the Completion-Timeout-Range per-GPU loop
targets a listed GPU or the root port of a listed GPU. -/
theorem ctoRangeGpuLoop_bdfs (fs : Fs) (v : CtoRange) (gpus : List String) :
    ∀ s : PciState, ∀ ev ∈ (ctoRangeGpuLoop fs v s gpus).2,
      ∃ g ∈ gpus, ev.bdf = g ∨ getRootPort fs g = some ev.bdf := by
  induction gpus with
  | nil => intro s ev hev; simp [ctoRangeGpuLoop] at hev
  | cons g rest ih =>
    intro s ev hev
    unfold ctoRangeGpuLoop at hev
    rcases List.mem_append.mp hev with h | h
    · unfold ctoRangeGpu at h
      cases hrc : getRootPort fs g with
      | none =>
        rw [hrc] at h
        have := ctoRangeDevLoop_bdfs v [g] s ev h
        exact ⟨g, by simp, Or.inl (by simpa using this)⟩
      | some rc =>
        rw [hrc] at h
        have := ctoRangeDevLoop_bdfs v [rc, g] s ev h
        rcases List.mem_cons.mp this with h' | h'
        · exact ⟨g, by simp, Or.inr (by rw [hrc, h'])⟩
        · exact ⟨g, by simp, Or.inl (by simpa using h')⟩
    · obtain ⟨g', hg', h'⟩ := ih _ ev h
      exact ⟨g', List.mem_cons_of_mem g hg', h'⟩

/-- C7 (counterexample): the Extended Tag enable operation does write an
intermediate bridge — on the concrete three-device chain with every
Device Control bit 8 clear, the bridge `0000:40:01.0` receives a write. -/
theorem exttag_writes_bridge_counterexample :
    (⟨brEx, Reg.capExp8w, 0x2910⟩ : WriteEv) ∈ (extendEnable fsEx sAllOk epEx).2 := by
  decide

/-- C7 (amended): the Completion-Timeout operations (disable bit and
range) write only listed endpoints and their root ports — so never an
intermediate bridge — while the Extended Tag enable operation writes
every device on the endpoint's path whose Device Control is readable
with bit 8 clear, intermediate bridges included. -/
theorem cto_targets_and_exttag_full_path (fs : Fs) (s : PciState) :
    (∀ gpus v, ∀ ev ∈ (setCompletionTimeoutDisable fs s gpus v).2,
        ∃ g ∈ gpus, ev.bdf = g ∨ getRootPort fs g = some ev.bdf) ∧
    (∀ gpus v, ∀ ev ∈ (setCompletionTimeoutRange fs s gpus v).2,
        ∃ g ∈ gpus, ev.bdf = g ∨ getRootPort fs g = some ev.bdf) ∧
    (∀ ep path, getPciPathToRoot fs ep = some path → path.Nodup →
        (extendEnable fs s ep).2 =
          (path.filter (fun d => (s d).devCtlOk &&
              ((s d).devCtl &&& extTagBitMask == 0))).map
            (fun d => ⟨d, Reg.capExp8w, (s d).devCtl ||| extTagBitMask⟩)) := by
  refine ⟨fun gpus v ev hev => ?_, fun gpus v ev hev => ctoRangeGpuLoop_bdfs fs v gpus s ev hev,
    fun ep path hpath hnd => ?_⟩
  · unfold setCompletionTimeoutDisable at hev
    by_cases hv : v ≤ 1
    · rw [if_pos hv] at hev
      exact ctdGpuLoop_bdfs fs v gpus s ev hev
    · rw [if_neg hv] at hev; simp at hev
  · unfold extendEnable
    rw [hpath]
    exact extendLoop_log path s hnd

/-! ## C1 / C5 — the strict MPS discipline -/

theorem hasPcieCap_components {s : PciState} {b : String} :
    hasPcieCap s b = true ↔ ((s b).capRegOk = true ∧ (s b).capReg ≠ 0) := by
  unfold hasPcieCap setpciRead readReg
  by_cases h : (s b).capRegOk <;> simp [h]

/-- Under successful reads, `_get_mps_cap_code` returns Device
Capabilities bits 2:0. -/
theorem getMpsCapCode_eq {s : PciState} {b : String}
    (hcap : hasPcieCap s b = true) (hok : (s b).devCapOk = true)
    (hnz : (s b).devCap ≠ 0) :
    getMpsCapCode s b = some ((s b).devCap &&& 0x7) := by
  unfold getMpsCapCode setpciRead readReg
  simp [hcap, hok, hnz]

/-- Equality `l.filterMap f = l.map g` when `f` is `some ∘ g` on `l`. -/
theorem filterMap_eq_map_of_some {α β : Type} {f : α → Option β} {g : α → β} :
    ∀ l : List α, (∀ x ∈ l, f x = some (g x)) → l.filterMap f = l.map g := by
  intro l
  induction l with
  | nil => intro _; rfl
  | cons a l ih =>
    intro h
    rw [List.filterMap_cons, h a (by simp), List.map_cons,
      ih (fun x hx => h x (by simp [hx]))]

/-- Function `_set_mps_code` under a valid code and successful reads: it issues
exactly the bits-7:5 write and succeeds iff the device accepts writes
(the read-back verification then returns the installed code). -/
theorem setMpsCode_good (s : PciState) (b : String) (code : Nat)
    (hcode : code ≤ 5) (hcap : hasPcieCap s b = true)
    (hok : (s b).devCtlOk = true) :
    setMpsCode s b code =
      ((setpciWrite s b .capExp8w ((pyAndNot (s b).devCtl (0x7 <<< 5)) ||| (code <<< 5))).1,
       [⟨b, Reg.capExp8w, (pyAndNot (s b).devCtl (0x7 <<< 5)) ||| (code <<< 5)⟩],
       (s b).writeOk) := by
  have hrd : setpciRead s b .capExp8w = some (s b).devCtl := by
    simp [setpciRead, readReg, hok]
  obtain ⟨hcro, hcrn⟩ := hasPcieCap_components.mp hcap
  by_cases hw : (s b).writeOk
  · have hrc : ((pyAndNot (s b).devCtl 224 ||| (code <<< 5)) >>> 5) &&& 7 = code :=
      mps_readback_code (s b).devCtl code (by omega)
    have hrb : getMpsCurrentCode
        (setDev s b (updateReg (s b) Reg.capExp8w
          (pyAndNot (s b).devCtl 224 ||| code <<< 5))) b = some code := by
      unfold getMpsCurrentCode hasPcieCap setpciRead readReg
      simp [setDev, updateReg, hcro, hcrn, hok, hrc]
    unfold setMpsCode
    rw [if_pos hcode, if_pos hcap]
    simp only [hrd]
    simp [setpciWrite, hw, hrb]
  · unfold setMpsCode
    rw [if_pos hcode, if_pos hcap]
    simp only [hrd]
    simp [setpciWrite, hw]

/-- The MPS write loop on a duplicate-free device list with successful
reads: it attempts the bits-7:5 write on every device — continuing past
failures — reports success iff every device accepted its write, leaves
devices off the list untouched, and keeps (does not roll back) the value
written to every accepting device. -/
theorem mpsWriteLoop_spec (code : Nat) (hcode : code ≤ 5) (devs : List String) :
    ∀ s : PciState, devs.Nodup →
      (∀ d ∈ devs, hasPcieCap s d = true ∧ (s d).devCtlOk = true) →
      (mpsWriteLoop code s devs).2.1 =
        devs.map (fun d =>
          ⟨d, Reg.capExp8w, (pyAndNot (s d).devCtl (0x7 <<< 5)) ||| (code <<< 5)⟩) ∧
      ((mpsWriteLoop code s devs).2.2 = true ↔ ∀ d ∈ devs, (s d).writeOk = true) ∧
      (∀ x, x ∉ devs → (mpsWriteLoop code s devs).1 x = s x) ∧
      (∀ d ∈ devs, (s d).writeOk = true →
        ((mpsWriteLoop code s devs).1 d).devCtl =
          (pyAndNot (s d).devCtl (0x7 <<< 5)) ||| (code <<< 5)) := by
  induction devs with
  | nil =>
    intro s _ _
    refine ⟨rfl, by simp [mpsWriteLoop], fun x _ => rfl, by simp⟩
  | cons d rest ih =>
    intro s hnd hgood
    have hdrest : d ∉ rest := (List.nodup_cons.mp hnd).1
    have hndr : rest.Nodup := (List.nodup_cons.mp hnd).2
    obtain ⟨hcapd, hokd⟩ := hgood d (by simp)
    have hstep := setMpsCode_good s d code hcode hcapd hokd
    have hs1rest : ∀ x ∈ rest,
        (setpciWrite s d .capExp8w
          ((pyAndNot (s d).devCtl (0x7 <<< 5)) ||| (code <<< 5))).1 x = s x := by
      intro x hx
      exact write_other (fun hh => hdrest (by rw [← hh]; exact hx)) s _ _
    have hgood1 : ∀ x ∈ rest,
        hasPcieCap (setpciWrite s d .capExp8w
          ((pyAndNot (s d).devCtl (0x7 <<< 5)) ||| (code <<< 5))).1 x = true ∧
        ((setpciWrite s d .capExp8w
          ((pyAndNot (s d).devCtl (0x7 <<< 5)) ||| (code <<< 5))).1 x).devCtlOk = true := by
      intro x hx
      obtain ⟨h1, h2⟩ := hgood x (by simp [hx])
      refine ⟨?_, ?_⟩
      · rw [hasPcieCap_components, hs1rest x hx]
        exact hasPcieCap_components.mp h1
      · rw [hs1rest x hx]
        exact h2
    obtain ⟨ihlog, ihok, ihframe, ihkeep⟩ := ih _ hndr hgood1
    have hunfold : mpsWriteLoop code s (d :: rest) =
        ((mpsWriteLoop code (setpciWrite s d .capExp8w
            ((pyAndNot (s d).devCtl (0x7 <<< 5)) ||| (code <<< 5))).1 rest).1,
         ⟨d, Reg.capExp8w, (pyAndNot (s d).devCtl (0x7 <<< 5)) ||| (code <<< 5)⟩ ::
           (mpsWriteLoop code (setpciWrite s d .capExp8w
            ((pyAndNot (s d).devCtl (0x7 <<< 5)) ||| (code <<< 5))).1 rest).2.1,
         (s d).writeOk &&
           (mpsWriteLoop code (setpciWrite s d .capExp8w
            ((pyAndNot (s d).devCtl (0x7 <<< 5)) ||| (code <<< 5))).1 rest).2.2) := by
      simp only [mpsWriteLoop, hstep]
      simp
    rw [hunfold]
    refine ⟨?_, ?_, ?_, ?_⟩
    · show _ :: _ = _
      rw [List.map_cons, ihlog]
      exact congrArg _ (List.map_congr_left (fun x hx => by rw [hs1rest x hx]))
    · show ((s d).writeOk && _) = true ↔ _
      rw [Bool.and_eq_true, ihok]
      constructor
      · rintro ⟨h1, h2⟩ x hx
        rcases List.mem_cons.mp hx with hh | hh
        · rw [hh]; exact h1
        · rw [← hs1rest x hh]; exact h2 x hh
      · intro hall
        refine ⟨hall d (by simp), fun x hx => ?_⟩
        rw [hs1rest x hx]
        exact hall x (by simp [hx])
    · intro x hx
      have hx1 : x ∉ rest := fun hh => hx (by simp [hh])
      have hxd : x ≠ d := fun hh => hx (by simp [hh])
      show (mpsWriteLoop code _ rest).1 x = s x
      rw [ihframe x hx1]
      exact write_other hxd s _ _
    · intro d' hd' hw'
      rcases List.mem_cons.mp hd' with hh | hh
      · subst hh
        show ((mpsWriteLoop code _ rest).1 d').devCtl = _
        rw [ihframe d' hdrest]
        simp [setpciWrite, hw', setDev, updateReg]
      · show ((mpsWriteLoop code _ rest).1 d').devCtl = _
        rw [ihkeep d' hh (by rw [hs1rest d' hh]; exact hw'), hs1rest d' hh]

/-- Control-flow of one GPU of `set_max_payload` under successful reads:
above the link minimum nothing at all happens and the GPU is reported
failed; at or below it the operation is exactly the write loop over the
PCIe-capable devices. -/
theorem setMaxPayloadGpu_branches (fs : Fs) (s : PciState) (code : Nat) (g : String)
    (path : List String)
    (hpath : getPciPathToRoot fs g = some path)
    (hread : ∀ d ∈ path, hasPcieCap s d = true →
      (s d).devCapOk = true ∧ (s d).devCap ≠ 0 ∧ (s d).devCtlOk = true)
    (hne : path.filter (fun d => hasPcieCap s d) ≠ []) :
    (listMin ((path.filter (fun d => hasPcieCap s d)).map
        (fun d => (s d).devCap &&& 0x7)) < code →
      setMaxPayloadGpu fs s code g = (s, [], false)) ∧
    (code ≤ listMin ((path.filter (fun d => hasPcieCap s d)).map
        (fun d => (s d).devCap &&& 0x7)) →
      setMaxPayloadGpu fs s code g =
        mpsWriteLoop code s (path.filter (fun d => hasPcieCap s d))) := by
  have hfm : (path.filter (fun d => hasPcieCap s d)).filterMap
        (fun d => getMpsCapCode s d) =
      (path.filter (fun d => hasPcieCap s d)).map (fun d => (s d).devCap &&& 0x7) := by
    apply filterMap_eq_map_of_some
    intro d hd
    have hmem := List.mem_filter.mp hd
    exact getMpsCapCode_eq hmem.2 (hread d hmem.1 hmem.2).1 (hread d hmem.1 hmem.2).2.1
  have hie : (path.filter (fun d => hasPcieCap s d)).isEmpty = false := by
    cases hfe : path.filter (fun d => hasPcieCap s d) with
    | nil => exact absurd hfe hne
    | cons a l => rfl
  have hce : ((path.filter (fun d => hasPcieCap s d)).map
      (fun d => (s d).devCap &&& 0x7)).isEmpty = false := by
    cases hfe : path.filter (fun d => hasPcieCap s d) with
    | nil => exact absurd hfe hne
    | cons a l => rfl
  constructor
  · intro hlt
    simp [setMaxPayloadGpu, hpath, hie, hfm, hce, hlt]
  · intro hge
    have hnlt : ¬(listMin ((path.filter (fun d => hasPcieCap s d)).map
        (fun d => (s d).devCap &&& 0x7)) < code) := not_lt.mpr hge
    simp [setMaxPayloadGpu, hpath, hie, hfm, hce, hnlt]

/-- C1 (confirmed): for an endpoint whose path is found, a requested
code 0-5 and successful reads on the path, the strict MPS operation
first takes the minimum MPS capability code over exactly the
PCIe-capability-bearing devices of the path (the others are excluded
from the minimum and from the write); above that minimum no register
write is issued on any device and the endpoint is reported failed;
otherwise the code is written into Device Control bits 7:5 of every
PCIe-capable device, each write verified by a read-back of the current
code, and the endpoint succeeds iff every write verified. -/
theorem mps_strict_policy (fs : Fs) (s : PciState) (code : Nat) (g : String)
    (path : List String)
    (hpath : getPciPathToRoot fs g = some path)
    (hcode : code ≤ 5)
    (hnd : path.Nodup)
    (hread : ∀ d ∈ path, hasPcieCap s d = true →
      (s d).devCapOk = true ∧ (s d).devCap ≠ 0 ∧ (s d).devCtlOk = true)
    (hne : path.filter (fun d => hasPcieCap s d) ≠ []) :
    (listMin ((path.filter (fun d => hasPcieCap s d)).map
        (fun d => (s d).devCap &&& 0x7)) < code →
      (∀ x, (setMaxPayloadGpu fs s code g).1 x = s x) ∧
      (setMaxPayloadGpu fs s code g).2.1 = [] ∧
      (setMaxPayloadGpu fs s code g).2.2 = false) ∧
    (code ≤ listMin ((path.filter (fun d => hasPcieCap s d)).map
        (fun d => (s d).devCap &&& 0x7)) →
      (setMaxPayloadGpu fs s code g).2.1 =
        (path.filter (fun d => hasPcieCap s d)).map (fun d =>
          ⟨d, Reg.capExp8w, (pyAndNot (s d).devCtl (0x7 <<< 5)) ||| (code <<< 5)⟩) ∧
      ((setMaxPayloadGpu fs s code g).2.2 = true ↔
        ∀ d ∈ path.filter (fun d => hasPcieCap s d), (s d).writeOk = true)) := by
  have hb := setMaxPayloadGpu_branches fs s code g path hpath hread hne
  have hnd' : (path.filter (fun d => hasPcieCap s d)).Nodup := hnd.filter _
  have hgood : ∀ d ∈ path.filter (fun d => hasPcieCap s d),
      hasPcieCap s d = true ∧ (s d).devCtlOk = true := by
    intro d hd
    have hm := List.mem_filter.mp hd
    exact ⟨hm.2, (hread d hm.1 hm.2).2.2⟩
  obtain ⟨l1, l2, -, -⟩ := mpsWriteLoop_spec code hcode _ s hnd' hgood
  constructor
  · intro hlt
    rw [hb.1 hlt]
    exact ⟨fun x => rfl, rfl, rfl⟩
  · intro hge
    rw [hb.2 hge]
    exact ⟨l1, l2⟩

/-- C1 (witness): on the concrete chain (every capability code 1 =
256B), requesting code 3 skips with no write and a failure report, and
requesting code 1 writes all three devices and succeeds. -/
theorem mps_strict_policy_witness :
    ((setMaxPayloadGpu fsEx sAllOk 3 epEx).2.1 = [] ∧
     (setMaxPayloadGpu fsEx sAllOk 3 epEx).2.2 = false) ∧
    ((setMaxPayloadGpu fsEx sAllOk 1 epEx).2.1 =
      [⟨epEx, Reg.capExp8w, 0x2830⟩, ⟨brEx, Reg.capExp8w, 0x2830⟩,
       ⟨rpEx, Reg.capExp8w, 0x2830⟩] ∧
     (setMaxPayloadGpu fsEx sAllOk 1 epEx).2.2 = true) := by
  constructor
  · have h := (mps_strict_policy fsEx sAllOk 3 epEx [epEx, brEx, rpEx]
      (by decide) (by decide) (by decide) (by decide) (by decide)).1 (by decide)
    exact ⟨h.2.1, h.2.2⟩
  · have h := (mps_strict_policy fsEx sAllOk 1 epEx [epEx, brEx, rpEx]
      (by decide) (by decide) (by decide) (by decide) (by decide)).2 (by decide)
    refine ⟨?_, h.2.mpr (by decide)⟩
    rw [h.1]
    decide

/-- C5 (counterexample): in the strict MPS write phase, a failing device
does not abort the remaining writes — with the bridge rejecting writes,
the root port further down the loop is still written (and retains the
new value), while the endpoint is reported failed. -/
theorem mps_no_abort_counterexample :
    (setMaxPayloadGpu fsEx sBridgeBad 1 epEx).2.1 =
      [⟨epEx, Reg.capExp8w, 0x2830⟩, ⟨brEx, Reg.capExp8w, 0x2830⟩,
       ⟨rpEx, Reg.capExp8w, 0x2830⟩] ∧
    (setMaxPayloadGpu fsEx sBridgeBad 1 epEx).2.2 = false ∧
    ((setMaxPayloadGpu fsEx sBridgeBad 1 epEx).1 rpEx).devCtl = 0x2830 := by
  refine ⟨by decide, by decide, by decide⟩

/-- C5 (amended): under the strict MPS discipline a write/verify failure
on one device marks the endpoint failed but the loop continues to the
remaining devices of the path, and writes already committed to other
devices are not undone; under the best-effort disciplines (here the
Extended Tag loop) a per-device failure only affects that device and
every other device is still processed. -/
theorem mps_failure_no_rollback (fs : Fs) (s : PciState) (code : Nat) (g : String)
    (path : List String)
    (hpath : getPciPathToRoot fs g = some path)
    (hcode : code ≤ 5)
    (hnd : path.Nodup)
    (hread : ∀ d ∈ path, hasPcieCap s d = true →
      (s d).devCapOk = true ∧ (s d).devCap ≠ 0 ∧ (s d).devCtlOk = true)
    (hne : path.filter (fun d => hasPcieCap s d) ≠ [])
    (hge : code ≤ listMin ((path.filter (fun d => hasPcieCap s d)).map
        (fun d => (s d).devCap &&& 0x7))) :
    ((setMaxPayloadGpu fs s code g).2.1 =
      (path.filter (fun d => hasPcieCap s d)).map (fun d =>
        ⟨d, Reg.capExp8w, (pyAndNot (s d).devCtl (0x7 <<< 5)) ||| (code <<< 5)⟩) ∧
     ((setMaxPayloadGpu fs s code g).2.2 = true ↔
       ∀ d ∈ path.filter (fun d => hasPcieCap s d), (s d).writeOk = true) ∧
     (∀ d ∈ path.filter (fun d => hasPcieCap s d), (s d).writeOk = true →
       ((setMaxPayloadGpu fs s code g).1 d).devCtl =
         (pyAndNot (s d).devCtl (0x7 <<< 5)) ||| (code <<< 5))) ∧
    (∀ (p2 : List String) (s2 : PciState), p2.Nodup →
      (extendLoop s2 p2).2 =
        (p2.filter (fun d => (s2 d).devCtlOk &&
            ((s2 d).devCtl &&& extTagBitMask == 0))).map
          (fun d => ⟨d, Reg.capExp8w, (s2 d).devCtl ||| extTagBitMask⟩)) := by
  have hb := setMaxPayloadGpu_branches fs s code g path hpath hread hne
  have hnd' : (path.filter (fun d => hasPcieCap s d)).Nodup := hnd.filter _
  have hgood : ∀ d ∈ path.filter (fun d => hasPcieCap s d),
      hasPcieCap s d = true ∧ (s d).devCtlOk = true := by
    intro d hd
    have hm := List.mem_filter.mp hd
    exact ⟨hm.2, (hread d hm.1 hm.2).2.2⟩
  obtain ⟨l1, l2, -, l4⟩ := mpsWriteLoop_spec code hcode _ s hnd' hgood
  refine ⟨?_, fun p2 s2 hnd2 => extendLoop_log p2 s2 hnd2⟩
  rw [hb.2 hge]
  exact ⟨l1, l2, l4⟩

/-- C5 (witness): the amended theorem on the concrete chain with a
write-rejecting bridge: all three writes are issued, the endpoint is
reported failed, and the endpoint and root port keep their new values. -/
theorem mps_failure_no_rollback_witness :
    (setMaxPayloadGpu fsEx sBridgeBad 1 epEx).2.2 = false ∧
    ((setMaxPayloadGpu fsEx sBridgeBad 1 epEx).1 epEx).devCtl = 0x2830 ∧
    ((setMaxPayloadGpu fsEx sBridgeBad 1 epEx).1 rpEx).devCtl = 0x2830 := by
  have h := mps_failure_no_rollback fsEx sBridgeBad 1 epEx [epEx, brEx, rpEx]
    (by decide) (by decide) (by decide) (by decide) (by decide) (by decide)
  refine ⟨?_, ?_, ?_⟩
  · rw [← Bool.not_eq_true]
    intro hh
    exact absurd (h.1.2.1.mp hh brEx (by decide)) (by decide)
  · exact h.1.2.2 epEx (by decide) (by decide)
  · exact h.1.2.2 rpEx (by decide) (by decide)

/-- C7 (witness): the amended theorem instantiated on the concrete
chain — the CTO-disable writes for endpoint `0000:41:00.0` touch only it
and its root port, and the Extended Tag enable log covers the full
three-device path. -/
theorem cto_targets_and_exttag_full_path_witness :
    (∀ ev ∈ (setCompletionTimeoutDisable fsEx sAllOk [epEx] 1).2,
        ∃ g ∈ [epEx], ev.bdf = g ∨ getRootPort fsEx g = some ev.bdf) ∧
    (extendEnable fsEx sAllOk epEx).2 =
      [⟨epEx, Reg.capExp8w, 0x2910⟩, ⟨brEx, Reg.capExp8w, 0x2910⟩,
       ⟨rpEx, Reg.capExp8w, 0x2910⟩] := by
  refine ⟨(cto_targets_and_exttag_full_path fsEx sAllOk).1 [epEx] 1, ?_⟩
  rw [(cto_targets_and_exttag_full_path fsEx sAllOk).2.2 epEx [epEx, brEx, rpEx]
    (by decide) (by decide)]
  decide

/-! ## C3 — idempotence of the write operations -/

/-- Setting bit 8 makes the Extended Tag test nonzero. -/
theorem or_mask_bit (x : Nat) : (x ||| extTagBitMask) &&& extTagBitMask ≠ 0 := by
  intro h
  have h8 := congrArg (fun n => Nat.testBit n 8) h
  simp only [Nat.testBit_land, Nat.testBit_lor] at h8
  have hm : Nat.testBit extTagBitMask 8 = true := by decide
  rw [hm] at h8
  simp at h8

theorem extendLoop_writeOk (l : List String) :
    ∀ (s : PciState) (x : String), ((extendLoop s l).1 x).writeOk = (s x).writeOk := by
  induction l with
  | nil => intro s x; rfl
  | cons b rest ih =>
    intro s x
    by_cases h1 : (s b).devCtlOk
    · by_cases h2 : (s b).devCtl &&& extTagBitMask = 0
      · rw [extendLoop_cons_clear rest h1 h2]
        show ((extendLoop _ rest).1 x).writeOk = _
        rw [ih _ x, write_writeOk]
      · rw [extendLoop_cons_set rest h1 h2, ih _ x]
    · have h1' : (s b).devCtlOk = false := by rw [← Bool.not_eq_true]; exact h1
      rw [extendLoop_cons_unreadable rest h1', ih _ x]

theorem extendLoop_devCtlOk (l : List String) :
    ∀ (s : PciState) (x : String), ((extendLoop s l).1 x).devCtlOk = (s x).devCtlOk := by
  induction l with
  | nil => intro s x; rfl
  | cons b rest ih =>
    intro s x
    by_cases h1 : (s b).devCtlOk
    · by_cases h2 : (s b).devCtl &&& extTagBitMask = 0
      · rw [extendLoop_cons_clear rest h1 h2]
        show ((extendLoop _ rest).1 x).devCtlOk = _
        rw [ih _ x, write_devCtlOk]
      · rw [extendLoop_cons_set rest h1 h2, ih _ x]
    · have h1' : (s b).devCtlOk = false := by rw [← Bool.not_eq_true]; exact h1
      rw [extendLoop_cons_unreadable rest h1', ih _ x]

/-- A device that needs nothing still needs nothing after any enable
loop: the loop only ever sets bit 8. -/
theorem extendLoop_pres_done (l : List String) :
    ∀ (s : PciState) (d : String), extDone s d → extDone (extendLoop s l).1 d := by
  induction l with
  | nil => intro s d h; exact h
  | cons b rest ih =>
    intro s d h
    by_cases h1 : (s b).devCtlOk
    · by_cases h2 : (s b).devCtl &&& extTagBitMask = 0
      · rw [extendLoop_cons_clear rest h1 h2]
        show extDone (extendLoop _ rest).1 d
        apply ih
        by_cases hd : d = b
        · subst hd
          unfold extDone
          by_cases hw : (s d).writeOk
          · intro _
            simp only [setpciWrite, hw, if_true, setDev, updateReg, if_pos rfl]
            exact or_mask_bit (s d).devCtl
          · have hw' : (s d).writeOk = false := by rw [← Bool.not_eq_true]; exact hw
            simp only [setpciWrite, hw', Bool.false_eq_true, if_false]
            exact h
        · unfold extDone
          rw [write_other hd]
          exact h
      · rw [extendLoop_cons_set rest h1 h2]
        exact ih s d h
    · have h1' : (s b).devCtlOk = false := by rw [← Bool.not_eq_true]; exact h1
      rw [extendLoop_cons_unreadable rest h1']
      exact ih s d h

/-- When every device accepts writes, one pass of the enable loop leaves
every processed device with nothing left to do. -/
theorem extendLoop_establish_done (l : List String) :
    ∀ s : PciState, (∀ b, (s b).writeOk = true) →
      ∀ d ∈ l, extDone (extendLoop s l).1 d := by
  induction l with
  | nil => intro s _ d hd; simp at hd
  | cons b rest ih =>
    intro s hw d hd
    by_cases h1 : (s b).devCtlOk
    · by_cases h2 : (s b).devCtl &&& extTagBitMask = 0
      · rw [extendLoop_cons_clear rest h1 h2]
        show extDone (extendLoop _ rest).1 d
        rcases List.mem_cons.mp hd with hh | hh
        · subst hh
          apply extendLoop_pres_done
          unfold extDone
          intro _
          simp only [setpciWrite, hw d, if_true, setDev, updateReg, if_pos rfl]
          exact or_mask_bit (s d).devCtl
        · exact ih _ (fun x => by rw [write_writeOk]; exact hw x) d hh
      · rw [extendLoop_cons_set rest h1 h2]
        rcases List.mem_cons.mp hd with hh | hh
        · subst hh
          exact extendLoop_pres_done rest s d (fun _ => h2)
        · exact ih s hw d hh
    · have h1' : (s b).devCtlOk = false := by rw [← Bool.not_eq_true]; exact h1
      rw [extendLoop_cons_unreadable rest h1']
      rcases List.mem_cons.mp hd with hh | hh
      · subst hh
        intro hcon
        rw [extendLoop_devCtlOk, h1'] at hcon
        exact absurd hcon (by simp)
      · exact ih s hw d hh

/-- The enable loop does nothing on a path of done devices. -/
theorem extendLoop_no_writes (l : List String) :
    ∀ s : PciState, (∀ d ∈ l, extDone s d) → extendLoop s l = (s, []) := by
  induction l with
  | nil => intro s _; rfl
  | cons b rest ih =>
    intro s h
    by_cases h1 : (s b).devCtlOk
    · have hb := h b (by simp) h1
      rw [extendLoop_cons_set rest h1 hb]
      exact ih s (fun d hd => h d (by simp [hd]))
    · have h1' : (s b).devCtlOk = false := by rw [← Bool.not_eq_true]; exact h1
      rw [extendLoop_cons_unreadable rest h1']
      exact ih s (fun d hd => h d (by simp [hd]))

theorem ctdDevLoop_cons_unreadable (v : Nat) (s : PciState) (b : String)
    (rest : List String) (h1 : (s b).devCtl2Ok = false) :
    ctdDevLoop v s (b :: rest) = ctdDevLoop v s rest := by
  simp [ctdDevLoop, setpciRead, readReg, h1]

theorem ctdDevLoop_cons_skip (v : Nat) (s : PciState) (b : String)
    (rest : List String) (h1 : (s b).devCtl2Ok = true)
    (h2 : (pyAndNot (s b).devCtl2 (1 <<< 4)) ||| (v <<< 4) = (s b).devCtl2) :
    ctdDevLoop v s (b :: rest) = ctdDevLoop v s rest := by
  have h2' : pyAndNot (s b).devCtl2 16 ||| v <<< 4 = (s b).devCtl2 := h2
  simp [ctdDevLoop, setpciRead, readReg, h1, h2']

theorem ctdDevLoop_cons_write (v : Nat) (s : PciState) (b : String)
    (rest : List String) (h1 : (s b).devCtl2Ok = true)
    (h2 : ¬((pyAndNot (s b).devCtl2 (1 <<< 4)) ||| (v <<< 4) = (s b).devCtl2)) :
    ctdDevLoop v s (b :: rest) =
      ((ctdDevLoop v (setpciWrite s b .capExp28w
          ((pyAndNot (s b).devCtl2 (1 <<< 4)) ||| (v <<< 4))).1 rest).1,
       ⟨b, Reg.capExp28w, (pyAndNot (s b).devCtl2 (1 <<< 4)) ||| (v <<< 4)⟩ ::
         (ctdDevLoop v (setpciWrite s b .capExp28w
          ((pyAndNot (s b).devCtl2 (1 <<< 4)) ||| (v <<< 4))).1 rest).2) := by
  have h2' : ¬(pyAndNot (s b).devCtl2 16 ||| v <<< 4 = (s b).devCtl2) := h2
  simp [ctdDevLoop, setpciRead, readReg, h1, h2']

theorem ctdDevLoop_writeOk (v : Nat) (l : List String) :
    ∀ (s : PciState) (x : String), ((ctdDevLoop v s l).1 x).writeOk = (s x).writeOk := by
  induction l with
  | nil => intro s x; rfl
  | cons b rest ih =>
    intro s x
    by_cases h1 : (s b).devCtl2Ok
    · by_cases h2 : (pyAndNot (s b).devCtl2 (1 <<< 4)) ||| (v <<< 4) = (s b).devCtl2
      · rw [ctdDevLoop_cons_skip v s b rest h1 h2, ih _ x]
      · rw [ctdDevLoop_cons_write v s b rest h1 h2]
        show ((ctdDevLoop v _ rest).1 x).writeOk = _
        rw [ih _ x, write_writeOk]
    · have h1' : (s b).devCtl2Ok = false := by rw [← Bool.not_eq_true]; exact h1
      rw [ctdDevLoop_cons_unreadable v s b rest h1', ih _ x]

theorem ctdDevLoop_devCtl2Ok (v : Nat) (l : List String) :
    ∀ (s : PciState) (x : String), ((ctdDevLoop v s l).1 x).devCtl2Ok = (s x).devCtl2Ok := by
  induction l with
  | nil => intro s x; rfl
  | cons b rest ih =>
    intro s x
    by_cases h1 : (s b).devCtl2Ok
    · by_cases h2 : (pyAndNot (s b).devCtl2 (1 <<< 4)) ||| (v <<< 4) = (s b).devCtl2
      · rw [ctdDevLoop_cons_skip v s b rest h1 h2, ih _ x]
      · rw [ctdDevLoop_cons_write v s b rest h1 h2]
        show ((ctdDevLoop v _ rest).1 x).devCtl2Ok = _
        rw [ih _ x, write_devCtl2Ok]
    · have h1' : (s b).devCtl2Ok = false := by rw [← Bool.not_eq_true]; exact h1
      rw [ctdDevLoop_cons_unreadable v s b rest h1', ih _ x]

/-- The bit-4 loop writes only fixed points, so done devices stay done. -/
theorem ctdDevLoop_pres_done (v : Nat) (l : List String) :
    ∀ (s : PciState) (d : String), ctdDone v s d → ctdDone v (ctdDevLoop v s l).1 d := by
  induction l with
  | nil => intro s d h; exact h
  | cons b rest ih =>
    intro s d h
    by_cases h1 : (s b).devCtl2Ok
    · by_cases h2 : (pyAndNot (s b).devCtl2 (1 <<< 4)) ||| (v <<< 4) = (s b).devCtl2
      · rw [ctdDevLoop_cons_skip v s b rest h1 h2]
        exact ih s d h
      · rw [ctdDevLoop_cons_write v s b rest h1 h2]
        show ctdDone v (ctdDevLoop v _ rest).1 d
        apply ih
        by_cases hd : d = b
        · subst hd
          unfold ctdDone
          by_cases hw : (s d).writeOk
          · intro _
            simp only [setpciWrite, hw, if_true, setDev, updateReg, if_pos rfl]
            exact ctd_newval_idem (s d).devCtl2 v
          · have hw' : (s d).writeOk = false := by rw [← Bool.not_eq_true]; exact hw
            simp only [setpciWrite, hw', Bool.false_eq_true, if_false]
            exact h
        · unfold ctdDone
          rw [write_other hd]
          exact h
    · have h1' : (s b).devCtl2Ok = false := by rw [← Bool.not_eq_true]; exact h1
      rw [ctdDevLoop_cons_unreadable v s b rest h1']
      exact ih s d h

/-- With writes succeeding everywhere, one pass of the bit-4 loop leaves
every processed device done. -/
theorem ctdDevLoop_establish_done (v : Nat) (l : List String) :
    ∀ s : PciState, (∀ b, (s b).writeOk = true) →
      ∀ d ∈ l, ctdDone v (ctdDevLoop v s l).1 d := by
  induction l with
  | nil => intro s _ d hd; simp at hd
  | cons b rest ih =>
    intro s hw d hd
    by_cases h1 : (s b).devCtl2Ok
    · by_cases h2 : (pyAndNot (s b).devCtl2 (1 <<< 4)) ||| (v <<< 4) = (s b).devCtl2
      · rw [ctdDevLoop_cons_skip v s b rest h1 h2]
        rcases List.mem_cons.mp hd with hh | hh
        · subst hh
          exact ctdDevLoop_pres_done v rest s d (fun _ => h2)
        · exact ih s hw d hh
      · rw [ctdDevLoop_cons_write v s b rest h1 h2]
        show ctdDone v (ctdDevLoop v _ rest).1 d
        rcases List.mem_cons.mp hd with hh | hh
        · subst hh
          apply ctdDevLoop_pres_done
          unfold ctdDone
          intro _
          simp only [setpciWrite, hw d, if_true, setDev, updateReg, if_pos rfl]
          exact ctd_newval_idem (s d).devCtl2 v
        · exact ih _ (fun x => by rw [write_writeOk]; exact hw x) d hh
    · have h1' : (s b).devCtl2Ok = false := by rw [← Bool.not_eq_true]; exact h1
      rw [ctdDevLoop_cons_unreadable v s b rest h1']
      rcases List.mem_cons.mp hd with hh | hh
      · subst hh
        intro hcon
        rw [ctdDevLoop_devCtl2Ok, h1'] at hcon
        exact absurd hcon (by simp)
      · exact ih s hw d hh

/-- The bit-4 loop does nothing on a list of done devices. -/
theorem ctdDevLoop_no_writes (v : Nat) (l : List String) :
    ∀ s : PciState, (∀ d ∈ l, ctdDone v s d) → ctdDevLoop v s l = (s, []) := by
  induction l with
  | nil => intro s _; rfl
  | cons b rest ih =>
    intro s h
    by_cases h1 : (s b).devCtl2Ok
    · have hb := h b (by simp) h1
      rw [ctdDevLoop_cons_skip v s b rest h1 hb]
      exact ih s (fun d hd => h d (by simp [hd]))
    · have h1' : (s b).devCtl2Ok = false := by rw [← Bool.not_eq_true]; exact h1
      rw [ctdDevLoop_cons_unreadable v s b rest h1']
      exact ih s (fun d hd => h d (by simp [hd]))

theorem ctdGpuLoop_cons_norc (fs : Fs) (v : Nat) (s : PciState) (g : String)
    (rest : List String) (hrc : getRootPort fs g = none) :
    ctdGpuLoop fs v s (g :: rest) = ctdGpuLoop fs v s rest := by
  simp [ctdGpuLoop, hrc]

theorem ctdGpuLoop_cons_rc (fs : Fs) (v : Nat) (s : PciState) (g rc : String)
    (rest : List String) (hrc : getRootPort fs g = some rc) :
    ctdGpuLoop fs v s (g :: rest) =
      ((ctdGpuLoop fs v (ctdDevLoop v s [g, rc]).1 rest).1,
       (ctdDevLoop v s [g, rc]).2 ++
         (ctdGpuLoop fs v (ctdDevLoop v s [g, rc]).1 rest).2) := by
  simp [ctdGpuLoop, hrc]

theorem ctdGpuLoop_writeOk (fs : Fs) (v : Nat) (gpus : List String) :
    ∀ (s : PciState) (x : String),
      ((ctdGpuLoop fs v s gpus).1 x).writeOk = (s x).writeOk := by
  induction gpus with
  | nil => intro s x; rfl
  | cons g rest ih =>
    intro s x
    cases hrc : getRootPort fs g with
    | none => rw [ctdGpuLoop_cons_norc fs v s g rest hrc, ih _ x]
    | some rc =>
      rw [ctdGpuLoop_cons_rc fs v s g rc rest hrc]
      show ((ctdGpuLoop fs v _ rest).1 x).writeOk = _
      rw [ih _ x, ctdDevLoop_writeOk]

theorem ctdGpuLoop_pres_done (fs : Fs) (v : Nat) (gpus : List String) :
    ∀ (s : PciState) (d : String), ctdDone v s d → ctdDone v (ctdGpuLoop fs v s gpus).1 d := by
  induction gpus with
  | nil => intro s d h; exact h
  | cons g rest ih =>
    intro s d h
    cases hrc : getRootPort fs g with
    | none =>
      rw [ctdGpuLoop_cons_norc fs v s g rest hrc]
      exact ih s d h
    | some rc =>
      rw [ctdGpuLoop_cons_rc fs v s g rc rest hrc]
      show ctdDone v (ctdGpuLoop fs v _ rest).1 d
      exact ih _ d (ctdDevLoop_pres_done v [g, rc] s d h)

/-- Running the Completion-Timeout-Disable per-GPU loop twice issues no
write on the second run (writes assumed to succeed). -/
theorem ctdGpuLoop_second_run (fs : Fs) (v : Nat) (gpus : List String) :
    ∀ s : PciState, (∀ b, (s b).writeOk = true) →
      (ctdGpuLoop fs v ((ctdGpuLoop fs v s gpus).1) gpus).2 = [] := by
  induction gpus with
  | nil => intro s _; rfl
  | cons g rest ih =>
    intro s hw
    cases hrc : getRootPort fs g with
    | none =>
      rw [ctdGpuLoop_cons_norc fs v s g rest hrc,
        ctdGpuLoop_cons_norc fs v ((ctdGpuLoop fs v s rest).1) g rest hrc]
      exact ih s hw
    | some rc =>
      have hw1 : ∀ b, (((ctdDevLoop v s [g, rc]).1) b).writeOk = true := by
        intro b
        rw [ctdDevLoop_writeOk]
        exact hw b
      have hdone : ∀ d ∈ [g, rc],
          ctdDone v ((ctdGpuLoop fs v (ctdDevLoop v s [g, rc]).1 rest).1) d := by
        intro d hd
        exact ctdGpuLoop_pres_done fs v rest _ d
          (ctdDevLoop_establish_done v [g, rc] s hw d hd)
      have hz : ctdDevLoop v ((ctdGpuLoop fs v (ctdDevLoop v s [g, rc]).1 rest).1) [g, rc] =
          ((ctdGpuLoop fs v (ctdDevLoop v s [g, rc]).1 rest).1, []) :=
        ctdDevLoop_no_writes v [g, rc] _ hdone
      rw [ctdGpuLoop_cons_rc fs v s g rc rest hrc]
      show (ctdGpuLoop fs v ((ctdGpuLoop fs v (ctdDevLoop v s [g, rc]).1 rest).1)
        (g :: rest)).2 = []
      rw [ctdGpuLoop_cons_rc fs v ((ctdGpuLoop fs v (ctdDevLoop v s [g, rc]).1 rest).1)
        g rc rest hrc]
      show ((ctdDevLoop v _ [g, rc]).2 ++ _) = _
      rw [hz]
      show ([] ++ _) = _
      rw [List.nil_append]
      exact ih _ hw1

/-- C3 (counterexample): the MRRS operation has no pre-check — running
`set_max_read_req` twice with the same code issues the (value-identical)
Device Control write again on the second run. -/
theorem mrrs_second_run_writes :
    (setMaxReadReq ((setMaxReadReq sAllOk [epEx] 2).1) [epEx] 2).2.1 =
      [⟨epEx, Reg.capExp8w, 0x2810⟩] := by
  decide

/-- C3 (amended): the Extended Tag enable and Completion-Timeout-Disable
operations short-circuit on the pre-read: running either twice in a row
with the same target performs zero register writes on the second run
(writes assumed to succeed); MPS, MRRS and Completion-Timeout-Range have
no such pre-check and issue their writes again. -/
theorem second_run_no_writes (fs : Fs) (s : PciState)
    (hw : ∀ b, (s b).writeOk = true) :
    (∀ ep, (extendEnable fs ((extendEnable fs s ep).1) ep).2 = []) ∧
    (∀ gpus v, (setCompletionTimeoutDisable fs
        ((setCompletionTimeoutDisable fs s gpus v).1) gpus v).2 = []) := by
  constructor
  · intro ep
    cases hp : getPciPathToRoot fs ep with
    | none => simp [extendEnable, hp]
    | some path =>
      have h1 : extendEnable fs s ep = extendLoop s path := by
        simp [extendEnable, hp]
      have h2 : extendEnable fs ((extendLoop s path).1) ep =
          extendLoop ((extendLoop s path).1) path := by
        simp [extendEnable, hp]
      rw [h1, h2,
        extendLoop_no_writes path _ (extendLoop_establish_done path s hw)]
  · intro gpus v
    unfold setCompletionTimeoutDisable
    by_cases hv : v ≤ 1
    · rw [if_pos hv, if_pos hv]
      exact ctdGpuLoop_second_run fs v gpus s hw
    · rw [if_neg hv, if_neg hv]

/-- C3 (witness): the double-run theorem on the concrete chain, where
the first runs do write (Extended Tag was disabled, the disable bit was
clear) and the second runs write nothing. -/
theorem second_run_no_writes_witness :
    (extendEnable fsEx ((extendEnable fsEx sAllOk epEx).1) epEx).2 = [] ∧
    (setCompletionTimeoutDisable fsEx
        ((setCompletionTimeoutDisable fsEx sAllOk [epEx] 1).1) [epEx] 1).2 = [] ∧
    (extendEnable fsEx sAllOk epEx).2 ≠ [] := by
  have h := second_run_no_writes fsEx sAllOk (fun b => rfl)
  exact ⟨h.1 epEx, h.2 [epEx] 1, by decide⟩

/-! ## C9 — raw listing lines fed to the ACS commands -/

/-- When every line has a first token, the `line.split()[0]`
comprehension does not raise. -/
theorem pyFirstTokens_eq :
    ∀ lines : List String, (∀ l ∈ lines, pyTokens l ≠ []) →
      pyFirstTokens lines = some (lines.map (fun l => (pyTokens l).headD "")) := by
  intro lines
  induction lines with
  | nil => intro _; rfl
  | cons l rest ih =>
    intro htok
    cases hc : pyTokens l with
    | nil => exact absurd hc (htok l (by simp))
    | cons t ts =>
      simp [pyFirstTokens, hc, ih (fun x hx => htok x (by simp [hx]))]

/-- On lines that all fail BDF validation, the ACS line loop leaves the
state untouched, writes nothing, and reports failure on every line. -/
theorem acsLinesLoop_invalid (fs : Fs) (en : Bool) :
    ∀ (lines : List String) (s : PciState), (∀ l ∈ lines, isPciBdf l = false) →
      acsLinesLoop fs en s lines = (s, [], lines.isEmpty) := by
  intro lines
  induction lines with
  | nil => intro s _; rfl
  | cons l rest ih =>
    intro s h
    have hc : configureAcsForUpstreamPorts fs s l en = (s, [], false) := by
      simp [configureAcsForUpstreamPorts, h l (by simp)]
    simp [acsLinesLoop, hc, ih s (fun x hx => h x (by simp [hx]))]

/-- C9 (confirmed): `enable_acs` and `disable_acs` iterate over the raw
`lspci` listing lines, not the extracted addresses.  When no listed line
is itself exactly a BDF string (every real listing line carries a
description after the address), the BDF validation inside
`configure_acs_for_upstream_ports` rejects every line: no ACS register
is written anywhere, the state is untouched, and both commands report
failure. -/
theorem acs_commands_reject_listing_lines (fs : Fs) (s : PciState)
    (lines : List String)
    (hne : lines ≠ [])
    (htok : ∀ l ∈ lines, pyTokens l ≠ [])
    (hbdf : ∀ l ∈ lines, isPciBdf l = false) :
    enableAcs fs s lines = some (s, [], false) ∧
    disableAcs fs s lines = some (s, [], false) := by
  have hft := pyFirstTokens_eq lines htok
  have hmie : (lines.map (fun l => (pyTokens l).headD "")).isEmpty = false := by
    cases lines with
    | nil => exact absurd rfl hne
    | cons a r => rfl
  have hie : lines.isEmpty = false := by
    cases lines with
    | nil => exact absurd rfl hne
    | cons a r => rfl
  constructor
  · simp [enableAcs, hft, hmie, acsLinesLoop_invalid fs true lines s hbdf, hie, hne]
  · simp [disableAcs, hft, hmie, acsLinesLoop_invalid fs false lines s hbdf, hie, hne]

/-- C9 (witness): a realistic listing line is rejected whole — no write,
error reported — by both ACS commands. -/
theorem acs_commands_reject_listing_lines_witness :
    enableAcs fsEx sAllOk ["0000:41:00.0 3D controller: NVIDIA Corporation GA100"] =
      some (sAllOk, [], false) ∧
    disableAcs fsEx sAllOk ["0000:41:00.0 3D controller: NVIDIA Corporation GA100"] =
      some (sAllOk, [], false) :=
  acs_commands_reject_listing_lines fsEx sAllOk
    ["0000:41:00.0 3D controller: NVIDIA Corporation GA100"]
    (by simp) (by decide) (by decide)

end PcieTuner
